import Mathlib

/-!
Verification development for the config-compass-compare repository
(src/backend/main.py, src/backend/utils/{json_diff,yaml_diff,xml_diff}.py).

The backend compares two configuration texts (JSON / YAML / XML) and returns
a summary, a detailed change list and a line-annotated rendering.  The JSON
and YAML comparators delegate the structural diff to the external `deepdiff`
library (`DeepDiff(source, target, ignore_order=not strict,
exclude_paths=ignore_keys)` with all other parameters at their defaults);
the XML comparator is hand written in xml_diff.py.

The embedding below translates the repository code directly.  The external
collaborators are modelled as follows:
* `json.loads` is modelled by an executable recursive-descent JSON parser
  (`json_loads`) over the grammar the CPython `json` module accepts
  (error-message strings are abbreviated, and `\u` escapes are modelled as
  single code points).
* `yaml.safe_load` and `xml.etree.ElementTree.fromstring` are opaque
  external parsers; the functions that call them take the parser as an
  explicit argument.
* `DeepDiff` is modelled by `ddiff`, following the library's documented
  default behaviour (see the doc comment on `ddiff`).

Python values that can appear in parsed JSON/YAML documents are modelled by
`JValue` (a float is an exact rational or one of `nan` / `inf` / `-inf`:
the claims under study only involve the int/float type distinction and the
non-reflexivity of `nan`, never float rounding).  Python exceptions are
modelled by the `Exc` sum type and `Except`.
-/

namespace ConfigCompare

/-! ## Character-list string utilities

Python string operations used by the code (`in`, `split`, `strip`,
`startswith`, `isdigit`, `lower`) are modelled on `List Char` so that every
definition is structurally recursive and reduces in the kernel. -/

/-- Model of python `needle in hay` restricted to the prefix position:
`needle` occurs at the start of `hay`. -/
def listIsPrefix : List Char → List Char → Bool
  | [], _ => true
  | _ :: _, [] => false
  | x :: xs, y :: ys => x == y && listIsPrefix xs ys

/-- Model of python substring containment `needle in hay`. -/
def listContainsSub (needle : List Char) : List Char → Bool
  | [] => listIsPrefix needle []
  | y :: ys => listIsPrefix needle (y :: ys) || listContainsSub needle ys

/-- Python `needle in hay` on strings. -/
def strContains (hay needle : String) : Bool :=
  listContainsSub needle.data hay.data

/-- Auxiliary splitter: python `str.split(sep)` for a one-character
separator, accumulating the current fragment in reverse. -/
def splitCharAux (c : Char) (acc : List Char) : List Char → List (List Char)
  | [] => [acc.reverse]
  | x :: xs => if x == c then acc.reverse :: splitCharAux c [] xs
               else splitCharAux c (x :: acc) xs

/-- Python `s.split(c)` for a single-character separator `c`.
`"a..b".split(".") = ["a", "", "b"]` and `"".split(".") = [""]`. -/
def strSplit (s : String) (c : Char) : List String :=
  (splitCharAux c [] s.data).map List.asString

/-- Whitespace characters stripped by python `str.strip()` (the ASCII ones;
the inputs under study contain no exotic unicode whitespace). -/
def isPyWs (c : Char) : Bool :=
  match c with
  | ' ' | '\t' | '\n' | '\r' | '\x0b' | '\x0c' => true
  | _ => false

/-- Python `str.strip()`. -/
def pyStrip (s : String) : String :=
  (((s.data.dropWhile isPyWs).reverse.dropWhile isPyWs).reverse).asString

/-- Python `str.lower()` (ASCII). -/
def pyLower (s : String) : String :=
  (s.data.map Char.toLower).asString

/-- Python `str.isdigit()` (ASCII digits; empty string is not a digit). -/
def pyIsDigit (s : String) : Bool :=
  !s.data.isEmpty && s.data.all Char.isDigit

/-- Python `str.startswith(p)`. -/
def pyStartsWith (s p : String) : Bool :=
  listIsPrefix p.data s.data

/-! ## Values of parsed JSON / YAML documents -/

/-- A python value as produced by `json.loads` / `yaml.safe_load`:
`None`, `bool`, `int`, `float` (a finite value carried as an exact
rational, or `nan` / `inf` / `-inf`), `str`,
`list`, `dict` (an insertion-ordered association list, keys unique). -/
inductive PyFloat where
  | rat (q : Rat) : PyFloat
  | nan : PyFloat
  | inf : PyFloat
  | ninf : PyFloat
deriving DecidableEq

/-- Python `==` on floats: exact on finite values, `inf`/`-inf` equal
themselves, and `nan` is unequal to everything including itself. -/
def pyFloatEq : PyFloat → PyFloat → Bool
  | .rat a, .rat b => a == b
  | .inf, .inf => true
  | .ninf, .ninf => true
  | _, _ => false

inductive JValue where
  | null : JValue
  | bool (b : Bool) : JValue
  | int (n : Int) : JValue
  | float (f : PyFloat) : JValue
  | str (s : String) : JValue
  | arr (xs : List JValue) : JValue
  | obj (fields : List (String × JValue)) : JValue

/-- First-match association-list lookup: python `d[k]` / `k in d` on the
(insertion-ordered, unique-key) dicts built by the parsers. -/
def lookupA {α : Type} (k : String) : List (String × α) → Option α
  | [] => none
  | (k2, v) :: rest => if k2 == k then some v else lookupA k rest

mutual

/-- Structural equality on parsed values, modelling python `==` as deepdiff
uses it on the values it compares.  (Python dict `==` ignores key order;
deepdiff never applies whole-dict `==` on the code paths modelled here —
mappings are diffed recursively — so an order-sensitive rendering of
mapping equality is only reachable through `ignore_order` multiset matching
of mapping elements, which no input of this development exercises.) -/
def jbeq : JValue → JValue → Bool
  | .null, .null => true
  | .bool a, .bool b => a == b
  | .int a, .int b => a == b
  | .float a, .float b => pyFloatEq a b
  | .str a, .str b => a == b
  | .arr a, .arr b => jbeqList a b
  | .obj a, .obj b => jbeqFields a b
  | _, _ => false
  termination_by structural a b => a

/-- Pointwise `jbeq` on lists. -/
def jbeqList : List JValue → List JValue → Bool
  | [], [] => true
  | x :: xs, y :: ys => jbeq x y && jbeqList xs ys
  | _, _ => false
  termination_by structural a b => a

/-- Pointwise `jbeq` on dict fields. -/
def jbeqFields : List (String × JValue) → List (String × JValue) → Bool
  | [], [] => true
  | (k1, v1) :: xs, (k2, v2) :: ys => k1 == k2 && jbeq v1 v2 && jbeqFields xs ys
  | _, _ => false
  termination_by structural a b => a

end

/-! ## Model of the `deepdiff` library (`DeepDiff(t1, t2, ignore_order=not
strict, exclude_paths=ignore_keys)`, all other parameters default)

Modelled behaviour of the library (recent releases, 6.4+ including 7.x/8.x,
which the repository installs; all of it from the library's documented text
view):

* default `verbose_level=1`, so in the text-view result
  `dictionary_item_added` / `dictionary_item_removed` are ordered **sets of
  path strings** (no values), while `values_changed`,
  `iterable_item_added`, `iterable_item_removed` and `type_changes` are
  dicts keyed by path strings;
* paths render as `root['key']` / `root[idx]`;
* `exclude_paths` entries are preprocessed by `add_root_to_paths`: an entry
  already starting with `root` is kept, a bare digit-string `d` becomes
  both `root['d']` and `root[d]`, any other bare entry `k` becomes
  `root['k']` — i.e. a bare key excludes the **top-level** key of that
  name; a node whose rendered path is in the set is skipped entirely;
* mappings are diffed key-wise (added / removed / recursed);
* values of different python types are reported under `type_changes`
  (ints vs floats included: `ignore_numeric_type_changes` defaults to
  False), never under `values_changed`;
* same-type scalars that differ are reported under `values_changed` with
  the old and new value;
* with `ignore_order=False` sequences are compared index-wise (recursing at
  `path[i]`) and surplus trailing items are reported under
  `iterable_item_added` / `iterable_item_removed`;
* with `ignore_order=True` sequences equal as multisets produce no report;
  otherwise unmatched elements are reported under `iterable_item_added` /
  `iterable_item_removed` (the library's pairing of *similar* items by
  distance is not modelled; no claim in this development depends on that
  branch). -/

/-- One component of a deepdiff path: a mapping key or a sequence index. -/
inductive PathComp where
  | key (s : String)
  | idx (n : Nat)
deriving DecidableEq

/-- Rendering of one path component, `['key']` or `[3]`. -/
def renderComp : PathComp → String
  | .key s => "[\x27" ++ s ++ "\x27]"
  | .idx n => "[" ++ toString n ++ "]"

/-- Rendering of a deepdiff path, e.g. `root['a'][0]`. -/
def renderPath (p : List PathComp) : String :=
  "root" ++ String.join (p.map renderComp)

/-- deepdiff `add_root_to_paths` preprocessing of `exclude_paths`. -/
def addRootToPaths (paths : List String) : List String :=
  paths.map fun path =>
    if pyStartsWith path "root" then path
    else "root[\x27" ++ path ++ "\x27]"

/-- deepdiff `add_root_to_paths` also adds the unquoted form `root[d]` for a
bare all-digit entry; the full exclusion set therefore is: -/
def excludeSet (paths : List String) : List String :=
  addRootToPaths paths ++
    (paths.filter (fun path => !pyStartsWith path "root" && pyIsDigit path)).map
      (fun path => "root[" ++ path ++ "]")

/-- The text-view result of a `DeepDiff` call (default `verbose_level=1`):
`dictionary_item_added`/`removed` hold only paths, the other categories
hold paths with values.  Paths are carried as component lists; they render
to the library's strings via `renderPath`. -/
structure DDResult where
  values_changed : List (List PathComp × JValue × JValue) := []
  type_changes : List (List PathComp × JValue × JValue) := []
  dictionary_item_added : List (List PathComp) := []
  dictionary_item_removed : List (List PathComp) := []
  iterable_item_added : List (List PathComp × JValue) := []
  iterable_item_removed : List (List PathComp × JValue) := []

/-- The empty diff report. -/
def emptyDD : DDResult := {}

/-- Category-wise concatenation of diff reports. -/
def mergeDD (a b : DDResult) : DDResult :=
  { values_changed := a.values_changed ++ b.values_changed
    type_changes := a.type_changes ++ b.type_changes
    dictionary_item_added := a.dictionary_item_added ++ b.dictionary_item_added
    dictionary_item_removed := a.dictionary_item_removed ++ b.dictionary_item_removed
    iterable_item_added := a.iterable_item_added ++ b.iterable_item_added
    iterable_item_removed := a.iterable_item_removed ++ b.iterable_item_removed }

/-- Multiplicity of `x` in `l` under `jbeq`. -/
def countJ (x : JValue) (l : List JValue) : Nat :=
  (l.filter fun y => jbeq x y).length

/-- Multiset equality of two sequences (deepdiff `ignore_order=True`
equality: same elements regardless of position). -/
def msEq (a b : List JValue) : Bool :=
  a.length == b.length && a.all (fun x => countJ x a == countJ x b)

/-- Items of `l` (with their indices, starting at `i0`) that do not occur in
`other` at all; used for the unmatched-item reports of
`ignore_order=True`. -/
def unmatched (other : List JValue) (i0 : Nat) : List JValue → List (Nat × JValue)
  | [] => []
  | x :: xs =>
      if countJ x other == 0 then (i0, x) :: unmatched other (i0 + 1) xs
      else unmatched other (i0 + 1) xs

/-- Surplus trailing items `l[i0], l[i0+1], ...` with their indices, for the
index-wise (`ignore_order=False`) comparison. -/
def surplus (i0 : Nat) : List JValue → List (Nat × JValue)
  | [] => []
  | x :: xs => (i0, x) :: surplus (i0 + 1) xs

mutual

/-- Model of `DeepDiff(t1, t2, ignore_order=io, exclude_paths=excl)` at the
node addressed by `p` (the preprocessed exclusion set `excl` is rendered
path strings).  See the section comment above for the modelled library
behaviour. -/
def ddiff (excl : List String) (io : Bool) (p : List PathComp) :
    JValue → JValue → DDResult
  | t1, t2 =>
    if excl.contains (renderPath p) then emptyDD
    else
      match t1, t2 with
      | .obj f1, .obj f2 =>
          mergeDD (ddObj excl io p f1 f2)
            { dictionary_item_removed :=
                ((f1.filter fun kv =>
                    !excl.contains (renderPath (p ++ [.key kv.1])) &&
                    (lookupA kv.1 f2).isNone).map
                  fun kv => p ++ [PathComp.key kv.1]) }
      | .arr a1, .arr a2 =>
          if io then
            if msEq a1 a2 then emptyDD
            else
              { iterable_item_added :=
                  (unmatched a1 0 a2).filter
                    (fun iv => !excl.contains (renderPath (p ++ [.idx iv.1])))
                    |>.map fun iv => (p ++ [PathComp.idx iv.1], iv.2)
                iterable_item_removed :=
                  (unmatched a2 0 a1).filter
                    (fun iv => !excl.contains (renderPath (p ++ [.idx iv.1])))
                    |>.map fun iv => (p ++ [PathComp.idx iv.1], iv.2) }
          else
            mergeDD (ddZip excl io p 0 a1 a2)
              { iterable_item_added :=
                  (surplus a1.length (a2.drop a1.length)).filter
                    (fun iv => !excl.contains (renderPath (p ++ [.idx iv.1])))
                    |>.map fun iv => (p ++ [PathComp.idx iv.1], iv.2)
                iterable_item_removed :=
                  (surplus a2.length (a1.drop a2.length)).filter
                    (fun iv => !excl.contains (renderPath (p ++ [.idx iv.1])))
                    |>.map fun iv => (p ++ [PathComp.idx iv.1], iv.2) }
      | .null, .null => emptyDD
      | .bool a, .bool b =>
          if a == b then emptyDD else { values_changed := [(p, .bool a, .bool b)] }
      | .int a, .int b =>
          if a == b then emptyDD else { values_changed := [(p, .int a, .int b)] }
      | .float a, .float b =>
          if pyFloatEq a b then emptyDD
          else { values_changed := [(p, .float a, .float b)] }
      | .str a, .str b =>
          if a == b then emptyDD else { values_changed := [(p, .str a, .str b)] }
      | t1, t2 => { type_changes := [(p, t1, t2)] }
  termination_by structural t1 t2 => t2

/-- Key-wise walk over the target mapping's fields: skipped keys produce
nothing, keys absent from the source report `dictionary_item_added`, keys
present in both recurse. -/
def ddObj (excl : List String) (io : Bool) (p : List PathComp)
    (f1 : List (String × JValue)) : List (String × JValue) → DDResult
  | [] => emptyDD
  | (k, v) :: rest =>
      mergeDD
        (if excl.contains (renderPath (p ++ [.key k])) then emptyDD
         else
           match lookupA k f1 with
           | none => { dictionary_item_added := [p ++ [PathComp.key k]] }
           | some sv => ddiff excl io (p ++ [.key k]) sv v)
        (ddObj excl io p f1 rest)
  termination_by structural l => l

/-- Index-wise walk over two sequences (`ignore_order=False`), recursing at
`path[i]` for each aligned pair. -/
def ddZip (excl : List String) (io : Bool) (p : List PathComp) (i : Nat) :
    List JValue → List JValue → DDResult
  | x :: xs, y :: ys =>
      mergeDD (ddiff excl io (p ++ [.idx i]) x y) (ddZip excl io p (i + 1) xs ys)
  | _, _ => emptyDD
  termination_by structural a b => b

end

/-! ## Exceptions and the comparison result shape -/

/-- Python exceptions relevant to the backend: `json.JSONDecodeError`,
`yaml.YAMLError`, `xml.etree.ElementTree.ParseError`, `TypeError`, and a
plain `Exception(msg)`. -/
inductive Exc where
  | jsonDecode (msg : String)
  | yamlError (msg : String)
  | xmlParse (msg : String)
  | typeError (msg : String)
  | generic (msg : String)
deriving DecidableEq

/-- Python `str(e)` on the modelled exceptions. -/
def Exc.message : Exc → String
  | .jsonDecode m => m
  | .yamlError m => m
  | .xmlParse m => m
  | .typeError m => m
  | .generic m => m

/-- The kind tag of a change record (`"addition"` / `"deletion"` /
`"modification"` in the python dicts). -/
inductive ChangeType where
  | addition
  | deletion
  | modification
deriving DecidableEq

/-- The `summary` dict of a comparison result. -/
structure Summary where
  additions : Nat
  deletions : Nat
  modifications : Nat
deriving DecidableEq

/-- One entry of the detailed `diff` list built by compare_json /
compare_yaml (`path`, `change_type`, and the values present for that
kind). -/
structure DRecord where
  path : String
  change_type : ChangeType
  old_value : Option JValue := none
  new_value : Option JValue := none

/-- The `formatted_diff` dict: annotated source and target lines. -/
structure Formatted where
  source : List String
  target : List String
deriving DecidableEq

/-- The result dict returned by compare_json / compare_yaml. -/
structure JsonResult where
  summary : Summary
  diff : List DRecord
  formatted_diff : Formatted

/-- The `summary` computed by compare_json / compare_yaml (json_diff.py
lines 23-27): `len` of the added/removed path sets plus the iterable-item
dicts, and `len(values_changed)`. -/
def mkSummary (diff : DDResult) : Summary :=
  { additions := diff.dictionary_item_added.length + diff.iterable_item_added.length
    deletions := diff.dictionary_item_removed.length + diff.iterable_item_removed.length
    modifications := diff.values_changed.length }

/-- Python `repr` of a string, as `%r` renders it inside the OrderedSet
error message: single-quoted, or double-quoted when the string contains a
single quote and no double quote (escape-free, which covers every
bracketed deepdiff path). -/
def pyReprStr (s : String) : String :=
  if s.data.contains '\x27' && !s.data.contains '"' then "\"" ++ s ++ "\""
  else "\x27" ++ s ++ "\x27"

/-- The message of the `TypeError` raised when the loops of json_diff.py
lines 33-46 index the verbose-level-1 ordered set
`diff['dictionary_item_added']` (respectively `..._removed`) with a path
string: orderly-set's `OrderedSet.__getitem__` does not treat strings as
iterables of indices and falls through to its final
`raise TypeError("Don\x27t know how to index an OrderedSet by %r" % index)`,
with the offending path (the first one the loop iterates) rendered by
`%r`. -/
def setIndexTypeErrorMsg (path : String) : String :=
  "Don\x27t know how to index an OrderedSet by " ++ pyReprStr path

/-- The detailed `diff` list built by compare_json / compare_yaml
(json_diff.py lines 30-55).  With the library's default `verbose_level=1`
the added/removed categories are ordered sets of path strings, so the first
loop iteration over a non-empty set raises a `TypeError` at
`diff['dictionary_item_added'][path]`; only the `values_changed` loop (a
dict of dicts) completes. -/
def mkDetailed (diff : DDResult) : Except Exc (List DRecord) :=
  match diff.dictionary_item_added with
  | q :: _ => .error (.typeError (setIndexTypeErrorMsg (renderPath q)))
  | [] =>
    match diff.dictionary_item_removed with
    | q :: _ => .error (.typeError (setIndexTypeErrorMsg (renderPath q)))
    | [] =>
      .ok (diff.values_changed.map fun pon =>
        { path := renderPath pon.1
          change_type := .modification
          old_value := some pon.2.1
          new_value := some pon.2.2 })

/-! ## Line annotators (json_diff.py lines 66-94, yaml_diff.py lines
66-93): each raw line of the input text is prefixed with a two-character
marker.  A source line gets `"- "` when any **full path string** of
`dictionary_item_removed` occurs in the line, else `"~ "` when any full
path string of `values_changed` occurs, else `"  "`; target lines
symmetrically with `dictionary_item_added` / `values_changed`. -/

/-- Python `text.split("\n")`. -/
def splitLines (s : String) : List String := strSplit s '\n'

/-- Marker logic for one source line of create_formatted_json_diff. -/
def jsonMarkSource (diff : DDResult) (line : String) : String :=
  if diff.dictionary_item_removed.any (fun key => strContains line (renderPath key)) then
    "- " ++ line
  else if diff.values_changed.any (fun key => strContains line (renderPath key.1)) then
    "~ " ++ line
  else
    "  " ++ line

/-- Marker logic for one target line of create_formatted_json_diff. -/
def jsonMarkTarget (diff : DDResult) (line : String) : String :=
  if diff.dictionary_item_added.any (fun key => strContains line (renderPath key)) then
    "+ " ++ line
  else if diff.values_changed.any (fun key => strContains line (renderPath key.1)) then
    "~ " ++ line
  else
    "  " ++ line

/-- `create_formatted_json_diff` (json_diff.py lines 66-94). -/
def create_formatted_json_diff (source_content target_content : String)
    (diff : DDResult) : Formatted :=
  { source := (splitLines source_content).map (jsonMarkSource diff)
    target := (splitLines target_content).map (jsonMarkTarget diff) }

/-- `create_formatted_yaml_diff` (yaml_diff.py lines 66-93) is the same
line-marking procedure as the JSON one. -/
def create_formatted_yaml_diff (source_content target_content : String)
    (diff : DDResult) : Formatted :=
  { source := (splitLines source_content).map (jsonMarkSource diff)
    target := (splitLines target_content).map (jsonMarkTarget diff) }

/-! ## compare_json / compare_yaml (json_diff.py / yaml_diff.py)

Both functions parse the two texts, run `DeepDiff(source_data, target_data,
ignore_order=not strict, exclude_paths=ignore_keys)`, build the formatted
diff, the summary and the detailed diff, and wrap **any** exception raised
on the way into a plain `Exception("JSON comparison failed: ..." )`
(respectively `"YAML comparison failed: ..."`) — the `try/except Exception`
of json_diff.py lines 7/63-64 re-raises every error, parse errors
included, as this generic exception. -/

/-- The body of `compare_json` up to the blanket `except` clause. -/
def compare_json_body (json_loads_fn : String → Except Exc JValue)
    (source_content target_content : String) (ignore_keys : List String)
    (strict : Bool) : Except Exc JsonResult := do
  let source_data ← json_loads_fn source_content
  let target_data ← json_loads_fn target_content
  let diff := ddiff (excludeSet ignore_keys) (!strict) [] source_data target_data
  let formatted_diff := create_formatted_json_diff source_content target_content diff
  let summary := mkSummary diff
  let detailed_diff ← mkDetailed diff
  pure { summary := summary, diff := detailed_diff, formatted_diff := formatted_diff }

/-- `compare_json` with the model `json.loads` plugged in is defined after
the parser below; this is the generic wrapper (json_diff.py lines 6-64). -/
def compare_json_with (json_loads_fn : String → Except Exc JValue)
    (source_content target_content : String) (ignore_keys : List String)
    (strict : Bool) : Except Exc JsonResult :=
  match compare_json_body json_loads_fn source_content target_content ignore_keys strict with
  | .ok r => .ok r
  | .error e => .error (.generic ("JSON comparison failed: " ++ e.message))

/-- `compare_yaml` (yaml_diff.py lines 6-64); `yaml.safe_load` is an
external parser passed explicitly. -/
def compare_yaml (safe_load : String → Except Exc JValue)
    (source_content target_content : String) (ignore_keys : List String)
    (strict : Bool) : Except Exc JsonResult :=
  match (do
      let source_data ← safe_load source_content
      let target_data ← safe_load target_content
      let diff := ddiff (excludeSet ignore_keys) (!strict) [] source_data target_data
      let formatted_diff := create_formatted_yaml_diff source_content target_content diff
      let summary := mkSummary diff
      let detailed_diff ← mkDetailed diff
      pure { summary := summary, diff := detailed_diff, formatted_diff := formatted_diff } :
      Except Exc JsonResult) with
  | .ok r => .ok r
  | .error e => .error (.generic ("YAML comparison failed: " ++ e.message))

/-! ## Model of `json.loads`

A recursive-descent parser for the JSON grammar the CPython `json` module
accepts: objects, arrays, strings with escapes, numbers (a number with a
fraction or exponent parses to a python `float`, otherwise to an `int`),
`true` / `false` / `null`, the CPython extensions `NaN` / `Infinity` /
`-Infinity` (accepted by default, producing the non-finite floats), with
`' '`, `'\t'`, `'\n'`, `'\r'` as whitespace.  Duplicate object keys keep the last value (python `dict`
semantics).  Deliberate simplifications, none observable by the claims
under study: error messages carry no line/column positions, a `\u` escape
becomes the single code point it denotes, and finite float literals are
kept as exact rationals rather than rounded to binary doubles. -/

/-- JSON whitespace skipping. -/
def skipWsL (cs : List Char) : List Char :=
  cs.dropWhile fun c =>
    match c with
    | ' ' | '\t' | '\n' | '\r' => true
    | _ => false

/-- Value of a hex digit. -/
def hexVal (c : Char) : Option Nat :=
  let n := c.toNat
  if 48 ≤ n && n ≤ 57 then some (n - 48)
  else if 97 ≤ n && n ≤ 102 then some (n - 87)
  else if 65 ≤ n && n ≤ 70 then some (n - 55)
  else none

/-- Parse the body of a string literal after the opening quote, returning
the content and the remainder after the closing quote. -/
def parseStrAux : List Char → Except String (List Char × List Char)
  | [] => .error "Unterminated string"
  | '"' :: rest => .ok ([], rest)
  | '\\' :: rest =>
      match rest with
      | '"' :: r => (parseStrAux r).map fun cr => ('"' :: cr.1, cr.2)
      | '\\' :: r => (parseStrAux r).map fun cr => ('\\' :: cr.1, cr.2)
      | '/' :: r => (parseStrAux r).map fun cr => ('/' :: cr.1, cr.2)
      | 'b' :: r => (parseStrAux r).map fun cr => ('\x08' :: cr.1, cr.2)
      | 'f' :: r => (parseStrAux r).map fun cr => ('\x0c' :: cr.1, cr.2)
      | 'n' :: r => (parseStrAux r).map fun cr => ('\n' :: cr.1, cr.2)
      | 'r' :: r => (parseStrAux r).map fun cr => ('\r' :: cr.1, cr.2)
      | 't' :: r => (parseStrAux r).map fun cr => ('\t' :: cr.1, cr.2)
      | 'u' :: h1 :: h2 :: h3 :: h4 :: r =>
          match hexVal h1, hexVal h2, hexVal h3, hexVal h4 with
          | some a, some b, some c, some d =>
              let n := ((a * 16 + b) * 16 + c) * 16 + d
              (parseStrAux r).map fun cr => (Char.ofNat n :: cr.1, cr.2)
          | _, _, _, _ => .error "Invalid hex escape"
      | _ => .error "Invalid escape"
  | c :: rest =>
      if c.toNat < 32 then .error "Invalid control character"
      else (parseStrAux rest).map fun cr => (c :: cr.1, cr.2)

/-- Take a maximal run of decimal digits. -/
def takeDigits (cs : List Char) : List Char × List Char :=
  (cs.takeWhile Char.isDigit, cs.dropWhile Char.isDigit)

/-- Numeric value of a digit run. -/
def digitsToNat (ds : List Char) : Nat :=
  ds.foldl (fun acc c => acc * 10 + (c.toNat - '0'.toNat)) 0

/-- The integer part of a JSON number: a single `0` or a nonzero digit
followed by digits (leading zeros are rejected, as in python). -/
def parseIntPart : List Char → Except String (List Char × List Char)
  | '0' :: rest => .ok (['0'], rest)
  | c :: rest =>
      if c.isDigit then
        let dr := takeDigits rest
        .ok (c :: dr.1, dr.2)
      else .error "Expecting value"
  | [] => .error "Expecting value"

/-- The exact rational denoted by a float literal
`±(intDigits.fracDigits)e(expo)`. -/
def ratOfParts (neg : Bool) (intDigits fracDigits : List Char) (expo : Int) : Rat :=
  let mant : Int := digitsToNat (intDigits ++ fracDigits)
  let mant := if neg then -mant else mant
  let e : Int := expo - fracDigits.length
  if 0 ≤ e then (mant : Rat) * ((10 : Rat) ^ e.toNat)
  else (mant : Rat) / ((10 : Rat) ^ (-e).toNat)

/-- The optional fraction part `.digits` of a JSON number. -/
def parseFrac : List Char → Except String (List Char × List Char)
  | '.' :: rest =>
      let dr := takeDigits rest
      if dr.1.isEmpty then .error "Expecting digits in fraction" else .ok (dr.1, dr.2)
  | cs => .ok ([], cs)

/-- The digits of an exponent after the `e`/`E` and optional sign; returns
the signed exponent value. -/
def parseExpAux (rest : List Char) : Except String (Bool × Int × List Char) :=
  let (eneg, rest2) :=
    match rest with
    | '-' :: r => (true, r)
    | '+' :: r => (false, r)
    | _ => (false, rest)
  let dr := takeDigits rest2
  if dr.1.isEmpty then .error "Expecting digits in exponent"
  else
    let e : Int := digitsToNat dr.1
    .ok (true, if eneg then -e else e, dr.2)

/-- The optional exponent part of a JSON number; the boolean records
whether an exponent was present. -/
def parseExp : List Char → Except String (Bool × Int × List Char)
  | 'e' :: rest => parseExpAux rest
  | 'E' :: rest => parseExpAux rest
  | cs => .ok (false, 0, cs)

/-- Parse a JSON number (first char is `-` or a digit); a fraction or an
exponent makes it a python `float`, otherwise it is an `int`. -/
def parseNumber (cs : List Char) : Except String (JValue × List Char) :=
  let (neg, cs1) :=
    match cs with
    | '-' :: rest => (true, rest)
    | _ => (false, cs)
  match parseIntPart cs1 with
  | .error e => .error e
  | .ok (intDigits, cs2) =>
    match parseFrac cs2 with
    | .error e => .error e
    | .ok (fracDigits, cs3) =>
      match parseExp cs3 with
      | .error e => .error e
      | .ok (hasExp, expo, cs4) =>
        if fracDigits.isEmpty && !hasExp then
          let n : Int := digitsToNat intDigits
          .ok (.int (if neg then -n else n), cs4)
        else
          .ok (.float (.rat (ratOfParts neg intDigits fracDigits expo)), cs4)

/-- `dict` insertion for the object parser: python keeps the first
position of a key and the last assigned value. -/
def updateA {α : Type} (k : String) (v : α) : List (String × α) → List (String × α)
  | [] => []
  | (k2, w) :: rest => if k2 == k then (k2, v) :: rest else (k2, w) :: updateA k v rest

/-- Insert-or-update into the insertion-ordered dict. -/
def objInsert {α : Type} (k : String) (v : α) (fields : List (String × α)) :
    List (String × α) :=
  if (lookupA k fields).isSome then updateA k v fields else fields ++ [(k, v)]

/-- Drop an expected literal character sequence from the front of the
input; `none` when the input does not continue with it.  Used for the
CPython scanner constants `NaN`, `Infinity` and `-Infinity`, which are
matched after the leading character has ruled the other value forms out. -/
def dropLit : List Char → List Char → Option (List Char)
  | [], cs => some cs
  | l :: ls, c :: cs => if c == l then dropLit ls cs else none
  | _ :: _, [] => none

mutual

/-- Parse one JSON value at the head of `cs` (whitespace already skipped).
The fuel only bounds nesting depth; the wrapper supplies more fuel than
the text has characters, so it is never exhausted on real inputs. -/
def parseValue : Nat → List Char → Except String (JValue × List Char)
  | 0, _ => .error "Document too deeply nested"
  | fuel + 1, cs =>
    match cs with
    | '{' :: rest =>
        (match skipWsL rest with
         | '}' :: rest2 => .ok (.obj [], rest2)
         | cs2 => parseMember fuel cs2 [])
    | '[' :: rest =>
        (match skipWsL rest with
         | ']' :: rest2 => .ok (.arr [], rest2)
         | cs2 => parseElement fuel cs2 [])
    | '"' :: rest => (parseStrAux rest).map fun cr => (.str cr.1.asString, cr.2)
    | 't' :: 'r' :: 'u' :: 'e' :: rest => .ok (.bool true, rest)
    | 'f' :: 'a' :: 'l' :: 's' :: 'e' :: rest => .ok (.bool false, rest)
    | 'n' :: 'u' :: 'l' :: 'l' :: rest => .ok (.null, rest)
    | 'N' :: rest =>
        (match dropLit ['a', 'N'] rest with
         | some r => .ok (.float .nan, r)
         | none => .error "Expecting value")
    | 'I' :: rest =>
        (match dropLit ['n', 'f', 'i', 'n', 'i', 't', 'y'] rest with
         | some r => .ok (.float .inf, r)
         | none => .error "Expecting value")
    | '-' :: 'I' :: rest =>
        (match dropLit ['n', 'f', 'i', 'n', 'i', 't', 'y'] rest with
         | some r => .ok (.float .ninf, r)
         | none => .error "Expecting value")
    | c :: _ => if c == '-' || c.isDigit then parseNumber cs else .error "Expecting value"
    | [] => .error "Expecting value"

/-- One `"key": value` member, then a comma or the closing brace. -/
def parseMember : Nat → List Char → List (String × JValue) →
    Except String (JValue × List Char)
  | 0, _, _ => .error "Document too deeply nested"
  | fuel + 1, cs, acc =>
    match cs with
    | '"' :: rest => do
        let (keyChars, afterKey) ← parseStrAux rest
        match skipWsL afterKey with
        | ':' :: afterColon => do
            let (v, afterVal) ← parseValue fuel (skipWsL afterColon)
            let acc := objInsert keyChars.asString v acc
            match skipWsL afterVal with
            | ',' :: afterComma => parseMember fuel (skipWsL afterComma) acc
            | '}' :: rest2 => .ok (.obj acc, rest2)
            | _ => .error "Expecting comma delimiter"
        | _ => .error "Expecting colon delimiter"
    | _ => .error "Expecting property name enclosed in double quotes"

/-- One array element, then a comma or the closing bracket. -/
def parseElement : Nat → List Char → List JValue → Except String (JValue × List Char)
  | 0, _, _ => .error "Document too deeply nested"
  | fuel + 1, cs, acc => do
      let (v, afterVal) ← parseValue fuel cs
      let acc := acc ++ [v]
      match skipWsL afterVal with
      | ',' :: afterComma => parseElement fuel (skipWsL afterComma) acc
      | ']' :: rest2 => .ok (.arr acc, rest2)
      | _ => .error "Expecting comma delimiter"

end

/-- Model of `json.loads`: parse one value, then require only whitespace to
remain. -/
def json_loads (s : String) : Except Exc JValue :=
  match parseValue (2 * s.length + 8) (skipWsL s.data) with
  | .error m => .error (.jsonDecode m)
  | .ok (v, rest) =>
      if (skipWsL rest).isEmpty then .ok v else .error (.jsonDecode "Extra data")

/-- `compare_json` (json_diff.py lines 6-64) with the modelled
`json.loads`. -/
def compare_json (source_content target_content : String) (ignore_keys : List String)
    (strict : Bool) : Except Exc JsonResult :=
  compare_json_with json_loads source_content target_content ignore_keys strict

/-! ## XML comparator (xml_diff.py)

`xml.etree.ElementTree.fromstring` produces an element tree; an element is
modelled by its tag, its direct text (python `element.text`, `None` when
absent) and its child elements.  `xml_to_dict` (xml_diff.py lines 36-51)
turns an element into a nested dict whose values are strings, dicts or
lists (`XVal`); `compare_xml_dicts` (lines 53-95) diffs two such dicts. -/

/-- An `xml.etree.ElementTree.Element`: tag, direct text, children. -/
inductive XmlElement where
  | mk (tag : String) (text : Option String) (children : List XmlElement)

/-- The element's tag. -/
def XmlElement.tag : XmlElement → String
  | .mk t _ _ => t

/-- The element's direct text. -/
def XmlElement.text : XmlElement → Option String
  | .mk _ t _ => t

/-- The element's children. -/
def XmlElement.children : XmlElement → List XmlElement
  | .mk _ _ c => c

/-- A value of the nested dicts built by `xml_to_dict`: a string (trimmed
text), a dict (one element), or a list (repeated sibling tags). -/
inductive XVal where
  | str (s : String) : XVal
  | dict (fields : List (String × XVal)) : XVal
  | list (items : List XVal) : XVal

mutual

/-- Python `==` on `xml_to_dict` values: strings compare as strings, lists
position-wise, dicts as unordered key→value maps (python dict equality
ignores insertion order). -/
def xeq : XVal → XVal → Bool
  | .str a, .str b => a == b
  | .list a, .list b => xeqList a b
  | .dict a, .dict b => a.length == b.length && xeqDictSub a b
  | _, _ => false
  termination_by structural a b => a

/-- Position-wise `xeq` on list values. -/
def xeqList : List XVal → List XVal → Bool
  | [], [] => true
  | x :: xs, y :: ys => xeq x y && xeqList xs ys
  | _, _ => false
  termination_by structural a b => a

/-- Every binding of the first dict is matched by a lookup in the
second. -/
def xeqDictSub : List (String × XVal) → List (String × XVal) → Bool
  | [], _ => true
  | (k, v) :: rest, b =>
      (match lookupA k b with
       | some w => xeq v w
       | none => false) && xeqDictSub rest b
  termination_by structural a b => a

end

/-- `result[child.tag]` promotion of xml_to_dict (lines 44-47): a prior
scalar entry is wrapped into a one-element list, then the new child is
appended. -/
def promoteAppend (prior child_data : XVal) : XVal :=
  match prior with
  | .list xs => .list (xs ++ [child_data])
  | _ => .list ([prior] ++ [child_data])

mutual

/-- `xml_to_dict` (xml_diff.py lines 36-51): the trimmed direct text (when
non-empty) is stored under the reserved key `"text"`, then each child is
folded in under its tag, repeated tags being promoted to lists. -/
def xml_to_dict : XmlElement → List (String × XVal)
  | .mk _ text children =>
    let result : List (String × XVal) :=
      match text with
      | some t => if pyStrip t ≠ "" then [("text", XVal.str (pyStrip t))] else []
      | none => []
    xmlFoldChildren result children
  termination_by structural e => e

/-- The `for child in element` loop of xml_to_dict. -/
def xmlFoldChildren (result : List (String × XVal)) :
    List XmlElement → List (String × XVal)
  | [] => result
  | child :: rest =>
      let child_data := XVal.dict (xml_to_dict child)
      let result2 :=
        match lookupA child.tag result with
        | some prior => updateA child.tag (promoteAppend prior child_data) result
        | none => result ++ [(child.tag, child_data)]
      xmlFoldChildren result2 rest
  termination_by structural l => l

end

/-- One entry of the `changes` list built by compare_xml_dicts. -/
structure XChange where
  path : String
  change_type : ChangeType
  old_value : Option XVal := none
  new_value : Option XVal := none

/-- The `for key, value in source_dict.items()` deletion loop of
compare_xml_dicts (lines 81-93). -/
def xmlDels (source_dict target_dict : List (String × XVal))
    (ignore_keys : List String) (path : String) : List XChange :=
  (source_dict.filter fun kv =>
      !ignore_keys.contains kv.1 && (lookupA kv.1 target_dict).isNone).map
    fun kv =>
      { path := path ++ "." ++ kv.1, change_type := .deletion, old_value := some kv.2 }

mutual

/-- The `for key, value in target_dict.items()` loop of compare_xml_dicts
(xml_diff.py lines 58-79): ignored keys are skipped, keys absent from the
source are additions, keys present in both defer to `xmlPairChanges`. -/
def xmlAddsMods : List (String × XVal) → List (String × XVal) → List String →
    String → List XChange
  | _, [], _, _ => []
  | source_dict, (key, value) :: rest, ignore_keys, path =>
      (if ignore_keys.contains key then []
       else
         let current_path := path ++ "." ++ key
         match lookupA key source_dict with
         | none =>
             [{ path := current_path, change_type := .addition,
                new_value := some value }]
         | some sv => xmlPairChanges sv value ignore_keys current_path) ++
      xmlAddsMods source_dict rest ignore_keys path
  termination_by structural s l ig p => l

/-- Lines 70-79 of compare_xml_dicts for one key present in both dicts:
equal values produce nothing, a dict/dict pair recurses (the recursive
`compare_xml_dicts` call is inlined as its adds/mods loop followed by its
deletion loop), anything else is a modification with both values
verbatim. -/
def xmlPairChanges : XVal → XVal → List String → String → List XChange
  | sv, value, ignore_keys, current_path =>
      if xeq sv value then []
      else
        match value, sv with
        | .dict tf, .dict sf =>
            xmlAddsMods sf tf ignore_keys current_path ++
              xmlDels sf tf ignore_keys current_path
        | _, _ =>
            [{ path := current_path, change_type := .modification,
               old_value := some sv, new_value := some value }]
  termination_by structural s v ig p => v

end

/-- `compare_xml_dicts` (xml_diff.py lines 53-95): additions and
modifications from the target loop (recursing into dict/dict pairs),
followed by deletions from the source loop; keys listed in `ignore_keys`
are skipped in both loops. -/
def compare_xml_dicts (source_dict target_dict : List (String × XVal))
    (ignore_keys : List String) (path : String) : List XChange :=
  xmlAddsMods source_dict target_dict ignore_keys path ++
    xmlDels source_dict target_dict ignore_keys path

/-- The summary of compare_xml (xml_diff.py lines 21-25): a direct tally of
the `changes` list by kind. -/
def xmlSummary (changes : List XChange) : Summary :=
  { additions := (changes.filter fun change => change.change_type == .addition).length
    deletions := (changes.filter fun change => change.change_type == .deletion).length
    modifications :=
      (changes.filter fun change => change.change_type == .modification).length }

/-- Marker logic for one source line of create_formatted_xml_diff
(xml_diff.py lines 105-118): a fragment of a change's dotted path occurring
as a substring of the line marks it. -/
def xmlMarkSource (changes : List XChange) (line : String) : String :=
  let has_deletion := changes.any fun change =>
    change.change_type == .deletion &&
      (strSplit change.path '.').any fun part => strContains line part
  let has_modification := changes.any fun change =>
    change.change_type == .modification &&
      (strSplit change.path '.').any fun part => strContains line part
  if has_deletion then "- " ++ line
  else if has_modification then "~ " ++ line
  else "  " ++ line

/-- Marker logic for one target line of create_formatted_xml_diff
(xml_diff.py lines 120-133). -/
def xmlMarkTarget (changes : List XChange) (line : String) : String :=
  let has_addition := changes.any fun change =>
    change.change_type == .addition &&
      (strSplit change.path '.').any fun part => strContains line part
  let has_modification := changes.any fun change =>
    change.change_type == .modification &&
      (strSplit change.path '.').any fun part => strContains line part
  if has_addition then "+ " ++ line
  else if has_modification then "~ " ++ line
  else "  " ++ line

/-- `create_formatted_xml_diff` (xml_diff.py lines 97-138). -/
def create_formatted_xml_diff (source_content target_content : String)
    (changes : List XChange) : Formatted :=
  { source := (splitLines source_content).map (xmlMarkSource changes)
    target := (splitLines target_content).map (xmlMarkTarget changes) }

/-- The result dict returned by compare_xml. -/
structure XmlResult where
  summary : Summary
  diff : List XChange
  formatted_diff : Formatted

/-- `compare_xml` (xml_diff.py lines 5-34); `ET.fromstring` is an external
parser passed explicitly.  The `strict` parameter is accepted and never
used, exactly as in the source.  As in the JSON/YAML comparators, the
blanket `except Exception` re-raises every error (parse errors included)
as a plain `Exception("XML comparison failed: ...")`. -/
def compare_xml (fromstring : String → Except Exc XmlElement)
    (source_content target_content : String) (ignore_keys : List String)
    (strict : Bool) : Except Exc XmlResult :=
  match (do
      let source_root ← fromstring source_content
      let target_root ← fromstring target_content
      let source_dict := xml_to_dict source_root
      let target_dict := xml_to_dict target_root
      let changes := compare_xml_dicts source_dict target_dict ignore_keys "root"
      let formatted_diff := create_formatted_xml_diff source_content target_content changes
      pure { summary := xmlSummary changes, diff := changes,
             formatted_diff := formatted_diff } : Except Exc XmlResult) with
  | .ok r => .ok r
  | .error e => .error (.generic ("XML comparison failed: " ++ e.message))

/-! ## Transport layer: the `/compare` handler (main.py lines 41-68)

The handler strips both contents, lowercases the format, dispatches to the
comparator, and maps exceptions to HTTP errors: `json.JSONDecodeError` →
400 "Invalid JSON format", `yaml.YAMLError` → 400 "Invalid YAML format",
`ET.ParseError` → 400 "Invalid XML format", anything else → 500
"Comparison failed".  (Because every comparator wraps its own failures —
parse errors included — into a plain `Exception`, only the last, generic
clause is ever reachable for comparator errors.) -/

/-- The request body of `/compare`. -/
structure CompareRequest where
  source_content : String
  target_content : String
  format : String
  ignore_keys : List String := []
  strict : Bool := true

/-- A FastAPI `HTTPException`: status code and detail message. -/
structure HttpError where
  status_code : Nat
  detail : String
deriving DecidableEq

/-- The response of `/compare` (one of the comparators' result shapes). -/
inductive ApiResult where
  | json (r : JsonResult)
  | yaml (r : JsonResult)
  | xml (r : XmlResult)

/-- The `except` chain of compare_files (main.py lines 61-68). -/
def excToHttp : Exc → HttpError
  | .jsonDecode m => { status_code := 400, detail := "Invalid JSON format: " ++ m }
  | .yamlError m => { status_code := 400, detail := "Invalid YAML format: " ++ m }
  | .xmlParse m => { status_code := 400, detail := "Invalid XML format: " ++ m }
  | e => { status_code := 500, detail := "Comparison failed: " ++ e.message }

/-- `compare_files` (main.py lines 41-68), parameterised by the two
external parsers used by the YAML and XML branches. -/
def compare_files (safe_load : String → Except Exc JValue)
    (fromstring : String → Except Exc XmlElement) (request : CompareRequest) :
    Except HttpError ApiResult :=
  let source_content := pyStrip request.source_content
  let target_content := pyStrip request.target_content
  let file_format := pyLower request.format
  let ignore_keys := request.ignore_keys
  let strict := request.strict
  if file_format = "json" then
    match compare_json source_content target_content ignore_keys strict with
    | .ok r => .ok (.json r)
    | .error e => .error (excToHttp e)
  else if file_format = "yaml" then
    match compare_yaml safe_load source_content target_content ignore_keys strict with
    | .ok r => .ok (.yaml r)
    | .error e => .error (excToHttp e)
  else if file_format = "xml" then
    match compare_xml fromstring source_content target_content ignore_keys strict with
    | .ok r => .ok (.xml r)
    | .error e => .error (excToHttp e)
  else
    .error { status_code := 400, detail := "Unsupported format: " ++ file_format }

/-! ## Claim-side notions

The definitions below formalise vocabulary the specification uses about the
results (tallies by kind, "a path terminating in a key", the collection of
all paths a deepdiff report mentions).  They are written from the
specification's words and are only used in theorem statements. -/

/-- Tally of the detailed diff list by change kind. -/
def countRecords (l : List DRecord) (t : ChangeType) : Nat :=
  (l.filter fun r => r.change_type == t).length

/-- Tally of an XML change list by change kind. -/
def countXChanges (l : List XChange) (t : ChangeType) : Nat :=
  (l.filter fun c => c.change_type == t).length

/-- The last dot-separated fragment of a dotted path: the characters after
the final `'.'` (the whole string when it has no dot).  A path "terminates
in `k`" when its last fragment is `k`. -/
def lastFrag (s : String) : String :=
  ((s.data.reverse.takeWhile fun c => c != '.').reverse).asString

/-- Python `s.endswith(suffix)`: used to read "the path terminates in `k`"
on deepdiff's bracketed paths, where the final component of a path renders
as `['k']`. -/
def strEndsWith (s suffix : String) : Bool :=
  listIsPrefix suffix.data.reverse s.data.reverse

/-- Every path mentioned anywhere in a deepdiff report. -/
def allDDPaths (dd : DDResult) : List (List PathComp) :=
  dd.values_changed.map (fun x => x.1) ++ dd.type_changes.map (fun x => x.1) ++
    dd.dictionary_item_added ++ dd.dictionary_item_removed ++
    dd.iterable_item_added.map (fun x => x.1) ++
    dd.iterable_item_removed.map (fun x => x.1)

/-! ## C1 / C4: the blanket exception wrappers -/

/-- C1 (code_bug): for the malformed JSON source `{"a":}` the parse error is
swallowed by compare_json's blanket `except Exception` and re-raised as a
plain `Exception`, so the handler's `except json.JSONDecodeError` clause
(main.py line 61) never fires and the caller receives HTTP 500 "Comparison
failed: ..." — an internal-error classification — instead of the 400
parse-error classification the claim (and main.py's own dead handler)
prescribes.  No diff result is produced, but the error is not
distinguishable as a parse error. -/
theorem c1_parse_error_masked :
    compare_files (fun _ => .error (.yamlError "unused"))
      (fun _ => .error (.xmlParse "unused"))
      { source_content := "\x7b\"a\":\x7d", target_content := "\x7b\x7d",
        format := "json" } =
    .error { status_code := 500,
             detail := "Comparison failed: JSON comparison failed: Expecting value" } :=
  rfl

/-- C4 (code_bug): on the specification's own Scenario 1 inputs the
comparison does not return the two-record diff at all: deepdiff reports the
added key `c` in the verbose-level-1 path set `dictionary_item_added`, and
the detailed-diff loop's `diff['dictionary_item_added'][path]` indexes that
set with a path string, raising a `TypeError` that the blanket wrapper
turns into `Exception("JSON comparison failed: ...")`. -/
theorem c4_scenario1_crashes :
    compare_json "\x7b\"a\": 1, \"b\": 2\x7d" "\x7b\"a\": 1, \"b\": 3, \"c\": 4\x7d" [] true =
      .error (.generic ("JSON comparison failed: " ++
        setIndexTypeErrorMsg "root[\x27c\x27]")) :=
  rfl

/-! ## C2: summary versus detailed-diff tally -/

/-- The comparison result of compare_json on source `{"a": [1]}` and target
`{"a": [1, 2]}` with no ignored keys and strict order. -/
def c2res : JsonResult :=
  { summary := { additions := 1, deletions := 0, modifications := 0 },
    diff := [],
    formatted_diff := { source := ["  \x7b\"a\": [1]\x7d"],
                        target := ["  \x7b\"a\": [1, 2]\x7d"] } }

/-- C2 counterexample: for well-formed inputs `{"a": [1]}` / `{"a": [1, 2]}`
(strict, no ignored keys) the returned summary counts one addition — the
iterable item deepdiff reports at `root['a'][1]` — while the returned diff
list contains no addition record at all, refuting
`summary.additions = count(kind=Addition)`. -/
theorem c2_counterexample :
    compare_json "\x7b\"a\": [1]\x7d" "\x7b\"a\": [1, 2]\x7d" [] true = .ok c2res ∧
    c2res.summary.additions ≠ countRecords c2res.diff ChangeType.addition :=
  ⟨rfl, by decide⟩

/-- The modification records built from a `values_changed` report are all of
kind modification. -/
theorem countRecords_vc_map (vcs : List (List PathComp × JValue × JValue)) :
    countRecords
      (vcs.map fun pon =>
        { path := renderPath pon.1, change_type := .modification,
          old_value := some pon.2.1, new_value := some pon.2.2 }) ChangeType.modification
      = vcs.length ∧
    countRecords
      (vcs.map fun pon =>
        { path := renderPath pon.1, change_type := .modification,
          old_value := some pon.2.1, new_value := some pon.2.2 }) ChangeType.addition
      = 0 ∧
    countRecords
      (vcs.map fun pon =>
        { path := renderPath pon.1, change_type := .modification,
          old_value := some pon.2.1, new_value := some pon.2.2 }) ChangeType.deletion
      = 0 := by
  induction vcs with
  | nil => exact ⟨rfl, rfl, rfl⟩
  | cons hd tl ih =>
      obtain ⟨ih1, ih2, ih3⟩ := ih
      refine ⟨?_, ?_, ?_⟩
      · simpa [countRecords, List.filter,
          show (ChangeType.modification == ChangeType.modification) = true from rfl]
          using ih1
      · simpa [countRecords, List.filter,
          show (ChangeType.modification == ChangeType.addition) = false from rfl]
          using ih2
      · simpa [countRecords, List.filter,
          show (ChangeType.modification == ChangeType.deletion) = false from rfl]
          using ih3

/-- C2 amended: the XML summary always equals the tally of the change list;
for JSON/YAML the modification count always matches, while the addition and
deletion summary counts exceed the record tallies by exactly the number of
iterable-item reports, which are counted in the summary but never emitted
into the diff list (whenever the comparator returns a result at all). -/
theorem c2_summary_tally :
    (∀ (dd : DDResult) (l : List DRecord), mkDetailed dd = .ok l →
      (mkSummary dd).modifications = countRecords l ChangeType.modification ∧
      (mkSummary dd).additions =
        countRecords l ChangeType.addition + dd.iterable_item_added.length ∧
      (mkSummary dd).deletions =
        countRecords l ChangeType.deletion + dd.iterable_item_removed.length) ∧
    (∀ changes : List XChange,
      xmlSummary changes =
        { additions := countXChanges changes ChangeType.addition,
          deletions := countXChanges changes ChangeType.deletion,
          modifications := countXChanges changes ChangeType.modification }) := by
  constructor
  · intro dd l h
    unfold mkDetailed at h
    match hadd : dd.dictionary_item_added with
    | _ :: _ => rw [hadd] at h; exact absurd h (by simp)
    | [] =>
      rw [hadd] at h
      match hrem : dd.dictionary_item_removed with
      | _ :: _ => rw [hrem] at h; exact absurd h (by simp)
      | [] =>
        rw [hrem] at h
        have hl : l = dd.values_changed.map fun pon =>
            { path := renderPath pon.1, change_type := .modification,
              old_value := some pon.2.1, new_value := some pon.2.2 } := by
          cases h; rfl
        subst hl
        obtain ⟨h1, h2, h3⟩ := countRecords_vc_map dd.values_changed
        refine ⟨?_, ?_, ?_⟩ <;> simp [mkSummary, hadd, hrem, h1, h2, h3]
  · intro changes
    rfl

/-- Witness for the amended C2 theorem at a concrete deepdiff report with
one iterable-item addition. -/
theorem c2_summary_tally_witness :
    (mkSummary { iterable_item_added := [([PathComp.key "a", PathComp.idx 1], JValue.int 2)] }).additions =
      countRecords [] ChangeType.addition +
        (({ iterable_item_added := [([PathComp.key "a", PathComp.idx 1], JValue.int 2)] } : DDResult)).iterable_item_added.length :=
  (c2_summary_tally.1
    { iterable_item_added := [([PathComp.key "a", PathComp.idx 1], JValue.int 2)] }
    [] rfl).2.1

/-! ## C6: scalars of differing numeric type -/

/-- The comparison result of compare_json on source `{"a": 1}` and target
`{"a": 1.0}` (strict, no ignored keys). -/
def c6res : JsonResult :=
  { summary := { additions := 0, deletions := 0, modifications := 0 },
    diff := [],
    formatted_diff := { source := ["  \x7b\"a\": 1\x7d"],
                        target := ["  \x7b\"a\": 1.0\x7d"] } }

/-- C6 counterexample: for `{"a": 1}` versus `{"a": 1.0}` (int versus float
of equal numeric value) the comparator emits no Modification record at all
— deepdiff files the pair under `type_changes`, a category the code never
reads — and the summary stays all-zero, refuting the claimed Modification
with both values verbatim. -/
theorem c6_counterexample :
    compare_json "\x7b\"a\": 1\x7d" "\x7b\"a\": 1.0\x7d" [] true = .ok c6res ∧
    countRecords c6res.diff ChangeType.modification = 0 ∧
    c6res.summary.modifications = 0 :=
  ⟨rfl, rfl, rfl⟩

/-- C6 amended: two same-key scalars of differing python type (such as int
`n` versus float `q`) compare unequal but are reported as a deepdiff type
change, which the comparator drops entirely: no record, zero summary.  A
Modification record with old and new values verbatim is produced exactly
for same-type scalars that differ (here: two unequal ints). -/
theorem c6_type_mismatch_dropped :
    (∀ (key : String) (n : Int) (q : Rat) (io : Bool),
      ddiff [] io [] (.obj [(key, .int n)]) (.obj [(key, .float (.rat q))]) =
        { type_changes := [([PathComp.key key], .int n, .float (.rat q))] } ∧
      mkSummary (ddiff [] io [] (.obj [(key, .int n)]) (.obj [(key, .float (.rat q))])) =
        { additions := 0, deletions := 0, modifications := 0 } ∧
      mkDetailed (ddiff [] io [] (.obj [(key, .int n)]) (.obj [(key, .float (.rat q))])) =
        .ok []) ∧
    (∀ (key : String) (n m : Int) (io : Bool), n ≠ m →
      ddiff [] io [] (.obj [(key, .int n)]) (.obj [(key, .int m)]) =
        { values_changed := [([PathComp.key key], .int n, .int m)] } ∧
      mkDetailed (ddiff [] io [] (.obj [(key, .int n)]) (.obj [(key, .int m)])) =
        .ok [{ path := renderPath [PathComp.key key], change_type := .modification,
               old_value := some (.int n), new_value := some (.int m) }]) := by
  constructor
  · intro key n q io
    have hd : ddiff [] io [] (.obj [(key, .int n)]) (.obj [(key, .float (.rat q))]) =
        { type_changes := [([PathComp.key key], .int n, .float (.rat q))] } := by
      simp [ddiff, ddObj, lookupA, mergeDD, emptyDD, List.contains]
    exact ⟨hd, by rw [hd]; rfl, by rw [hd]; rfl⟩
  · intro key n m io h
    have hne : (n == m) = false := by simpa using h
    have hd : ddiff [] io [] (.obj [(key, .int n)]) (.obj [(key, .int m)]) =
        { values_changed := [([PathComp.key key], .int n, .int m)] } := by
      simp [ddiff, ddObj, lookupA, mergeDD, emptyDD, List.contains, hne]
    exact ⟨hd, by rw [hd]; rfl⟩

/-- Witness for the amended C6 theorem at key `"a"`, values `1` / `1.0` and
`1` / `2`. -/
theorem c6_type_mismatch_dropped_witness :
    mkDetailed (ddiff [] true [] (.obj [("a", .int 1)]) (.obj [("a", .float (.rat 1))])) =
      .ok [] ∧
    mkDetailed (ddiff [] true [] (.obj [("a", .int 1)]) (.obj [("a", .int 2)])) =
      .ok [{ path := renderPath [PathComp.key "a"], change_type := .modification,
             old_value := some (.int 1), new_value := some (.int 2) }] :=
  ⟨(c6_type_mismatch_dropped.1 "a" 1 1 true).2.2,
   (c6_type_mismatch_dropped.2 "a" 1 2 true (by decide)).2⟩

/-! ## C5: sequence order sensitivity -/

/-- The comparison result of compare_json on source `{"a": [1, 2, 3]}` and
target `{"a": [3, 2, 1]}` (strict, no ignored keys). -/
def c5res : JsonResult :=
  { summary := { additions := 0, deletions := 0, modifications := 2 },
    diff := [{ path := "root[\x27a\x27][0]", change_type := .modification,
               old_value := some (.int 1), new_value := some (.int 3) },
             { path := "root[\x27a\x27][2]", change_type := .modification,
               old_value := some (.int 3), new_value := some (.int 1) }],
    formatted_diff := { source := ["  \x7b\"a\": [1, 2, 3]\x7d"],
                        target := ["  \x7b\"a\": [3, 2, 1]\x7d"] } }

/-- C5 counterexample: for `{"a": [1, 2, 3]}` versus `{"a": [3, 2, 1]}` with
strict=true the JSON comparator does not yield one Modification at the
sequence's path `root['a']`: deepdiff descends into the sequence and
reports two per-element modifications, at `root['a'][0]` and
`root['a'][2]`. -/
theorem c5_counterexample :
    compare_json "\x7b\"a\": [1, 2, 3]\x7d" "\x7b\"a\": [3, 2, 1]\x7d" [] true =
      .ok c5res ∧
    c5res.diff.length = 2 ∧
    "root[\x27a\x27]" ∉ c5res.diff.map DRecord.path :=
  ⟨rfl, rfl, by decide⟩

/-- C5 amended: with strict=false (ignore_order) sequences equal as
multisets produce no report in JSON/YAML; with strict=true the JSON/YAML
differ reports per-element modifications at the changed indices (for
`[1,2,3]` vs `[3,2,1]`: indices 0 and 2), not one whole-sequence record.
The XML comparator never reads its `strict` parameter: it reports one
whole-sequence Modification at the sequence's path in both modes. -/
theorem c5_order_sensitivity :
    (∀ (excl : List String) (p : List PathComp) (a1 a2 : List JValue),
      msEq a1 a2 = true → ddiff excl true p (.arr a1) (.arr a2) = emptyDD) ∧
    (ddiff [] false [] (.arr [.int 1, .int 2, .int 3]) (.arr [.int 3, .int 2, .int 1]) =
      { values_changed := [([PathComp.idx 0], .int 1, .int 3),
                           ([PathComp.idx 2], .int 3, .int 1)] }) ∧
    (∀ fromstring (src tgt : String) (ig : List String) (b1 b2 : Bool),
      compare_xml fromstring src tgt ig b1 = compare_xml fromstring src tgt ig b2) ∧
    (compare_xml_dicts [("a", XVal.list [.str "1", .str "2", .str "3"])]
        [("a", XVal.list [.str "3", .str "2", .str "1"])] [] "root" =
      [{ path := "root.a", change_type := .modification,
         old_value := some (XVal.list [.str "1", .str "2", .str "3"]),
         new_value := some (XVal.list [.str "3", .str "2", .str "1"]) }]) := by
  refine ⟨?_, rfl, fun _ _ _ _ _ _ => rfl, rfl⟩
  intro excl p a1 a2 h
  simp [ddiff, h]

/-- Witness for the amended C5 theorem: the multiset-equal pair `[1, 2]` /
`[2, 1]` yields the empty report under ignore_order. -/
theorem c5_order_sensitivity_witness :
    ddiff [] true [] (.arr [.int 1, .int 2]) (.arr [.int 2, .int 1]) = emptyDD :=
  c5_order_sensitivity.1 [] [] [.int 1, .int 2] [.int 2, .int 1] (by decide)

/-! ## C10: the annotators preserve line count and content -/

/-- One of the four two-character line markers. -/
def isMarker (m : String) : Prop :=
  m = "  " ∨ m = "- " ∨ m = "~ " ∨ m = "+ "

/-- `out` annotates `lines`: same length, and every entry is a two-character
marker followed by the corresponding original line unchanged. -/
def annotatesLines (out lines : List String) : Prop :=
  out.length = lines.length ∧
    ∀ p ∈ out.zip lines, ∃ m, isMarker m ∧ p.1 = m ++ p.2

/-- A per-line marking function that always prepends a marker annotates any
line list it is mapped over. -/
theorem annotates_of_map (f : String → String) (lines : List String)
    (h : ∀ line, ∃ m, isMarker m ∧ f line = m ++ line) :
    annotatesLines (lines.map f) lines := by
  constructor
  · simp
  · induction lines with
    | nil => intro p hp; simp at hp
    | cons hd tl ih =>
        intro p hp
        simp only [List.map_cons, List.zip_cons_cons, List.mem_cons] at hp
        rcases hp with h1 | h2
        · subst h1; exact h hd
        · exact ih p h2

/-- The four marking functions all prepend one of the four markers. -/
theorem mark_shapes (dd : DDResult) (changes : List XChange) (line : String) :
    (∃ m, isMarker m ∧ jsonMarkSource dd line = m ++ line) ∧
    (∃ m, isMarker m ∧ jsonMarkTarget dd line = m ++ line) ∧
    (∃ m, isMarker m ∧ xmlMarkSource changes line = m ++ line) ∧
    (∃ m, isMarker m ∧ xmlMarkTarget changes line = m ++ line) := by
  refine ⟨?_, ?_, ?_, ?_⟩
  · unfold jsonMarkSource
    split
    · exact ⟨"- ", Or.inr (Or.inl rfl), rfl⟩
    split
    · exact ⟨"~ ", Or.inr (Or.inr (Or.inl rfl)), rfl⟩
    · exact ⟨"  ", Or.inl rfl, rfl⟩
  · unfold jsonMarkTarget
    split
    · exact ⟨"+ ", Or.inr (Or.inr (Or.inr rfl)), rfl⟩
    split
    · exact ⟨"~ ", Or.inr (Or.inr (Or.inl rfl)), rfl⟩
    · exact ⟨"  ", Or.inl rfl, rfl⟩
  · simp only [xmlMarkSource]
    split
    · exact ⟨"- ", Or.inr (Or.inl rfl), rfl⟩
    split
    · exact ⟨"~ ", Or.inr (Or.inr (Or.inl rfl)), rfl⟩
    · exact ⟨"  ", Or.inl rfl, rfl⟩
  · simp only [xmlMarkTarget]
    split
    · exact ⟨"+ ", Or.inr (Or.inr (Or.inr rfl)), rfl⟩
    split
    · exact ⟨"~ ", Or.inr (Or.inr (Or.inl rfl)), rfl⟩
    · exact ⟨"  ", Or.inl rfl, rfl⟩

/-- C10 (confirmed): for every pair of input texts and every change report,
each of the three formats' annotators emits exactly one entry per newline-
split line of the corresponding text, and each entry is exactly a
two-character marker (`"  "`, `"- "`, `"~ "` or `"+ "`) followed by the
original line unchanged. -/
theorem c10_annotators_preserve_lines (src tgt : String) (dd : DDResult)
    (changes : List XChange) :
    annotatesLines (create_formatted_json_diff src tgt dd).source (splitLines src) ∧
    annotatesLines (create_formatted_json_diff src tgt dd).target (splitLines tgt) ∧
    annotatesLines (create_formatted_yaml_diff src tgt dd).source (splitLines src) ∧
    annotatesLines (create_formatted_yaml_diff src tgt dd).target (splitLines tgt) ∧
    annotatesLines (create_formatted_xml_diff src tgt changes).source (splitLines src) ∧
    annotatesLines (create_formatted_xml_diff src tgt changes).target (splitLines tgt) := by
  refine ⟨?_, ?_, ?_, ?_, ?_, ?_⟩
  all_goals
    first
      | exact annotates_of_map _ _ (fun line => (mark_shapes dd changes line).1)
      | exact annotates_of_map _ _ (fun line => (mark_shapes dd changes line).2.1)
      | exact annotates_of_map _ _ (fun line => (mark_shapes dd changes line).2.2.1)
      | exact annotates_of_map _ _ (fun line => (mark_shapes dd changes line).2.2.2)

/-- Witness for C10 at a concrete two-line source text and one-line
target. -/
theorem c10_annotators_preserve_lines_witness :
    annotatesLines (create_formatted_json_diff "a\nb" "c" emptyDD).source
      (splitLines "a\nb") :=
  (c10_annotators_preserve_lines "a\nb" "c" emptyDD []).1

/-! ## C9: the line-marking rule

Claim-side reading of "the path split on its structural separator": XML
paths are dotted (`root.item`), so their fragments come from `split('.')`;
deepdiff paths are bracketed (`root['b']`, `root['a'][0]`), so their
fragments are `root` followed by the bare component names. -/

/-- The fragments of a deepdiff path: `root` plus each component's bare
name. -/
def ddPathFragments (p : List PathComp) : List String :=
  "root" :: p.map fun c =>
    match c with
    | .key s => s
    | .idx n => toString n

/-- All dotted-path fragments of the changes of one kind, as the claim
reads them for the XML annotator. -/
def kindFragments (changes : List XChange) (t : ChangeType) : List String :=
  (changes.filter fun c => c.change_type == t).flatMap fun c => strSplit c.path '.'

/-- The claim's marking rule for one XML source line: `"-"` when a Deletion
fragment occurs as a substring, else `"~"` when a Modification fragment
occurs, else `" "`. -/
def specXmlMarkSource (changes : List XChange) (line : String) : String :=
  if (kindFragments changes ChangeType.deletion).any (fun part => strContains line part) then
    "- " ++ line
  else if (kindFragments changes ChangeType.modification).any (fun part => strContains line part) then
    "~ " ++ line
  else
    "  " ++ line

/-- The claim's marking rule for one XML target line. -/
def specXmlMarkTarget (changes : List XChange) (line : String) : String :=
  if (kindFragments changes ChangeType.addition).any (fun part => strContains line part) then
    "+ " ++ line
  else if (kindFragments changes ChangeType.modification).any (fun part => strContains line part) then
    "~ " ++ line
  else
    "  " ++ line

/-- The full deepdiff path strings of one report category, as the JSON/YAML
annotators actually match them (no splitting). -/
def renderedPaths (l : List (List PathComp)) : List String := l.map renderPath

/-- The amended marking rule for one JSON/YAML source line: a marker is
applied only when an **entire rendered path string** (e.g. `root['b']`)
occurs as a substring of the line. -/
def specJsonMarkSource (dd : DDResult) (line : String) : String :=
  if (renderedPaths dd.dictionary_item_removed).any (fun p => strContains line p) then
    "- " ++ line
  else if (renderedPaths (dd.values_changed.map fun x => x.1)).any (fun p => strContains line p) then
    "~ " ++ line
  else
    "  " ++ line

/-- The amended marking rule for one JSON/YAML target line. -/
def specJsonMarkTarget (dd : DDResult) (line : String) : String :=
  if (renderedPaths dd.dictionary_item_added).any (fun p => strContains line p) then
    "+ " ++ line
  else if (renderedPaths (dd.values_changed.map fun x => x.1)).any (fun p => strContains line p) then
    "~ " ++ line
  else
    "  " ++ line

/-- Flattened fragment matching equals the nested per-change matching the
code performs. -/
theorem kindFragments_any (changes : List XChange) (t : ChangeType)
    (f : String → Bool) :
    (kindFragments changes t).any f =
      changes.any fun c => c.change_type == t && (strSplit c.path '.').any f := by
  induction changes with
  | nil => rfl
  | cons hd tl ih =>
      by_cases h : hd.change_type == t
      · simp [kindFragments, List.filter_cons, h, List.any_append, ih]
      · simp [kindFragments, List.filter_cons, h, ih]

/-- `any` over a mapped list equals `any` through the map. -/
theorem listAnyMap {α β : Type} (f : α → β) (l : List α) (p : β → Bool) :
    (l.map f).any p = l.any fun a => p (f a) := by
  induction l with
  | nil => rfl
  | cons hd tl ih => simp only [List.map_cons, List.any_cons, ih]

/-- Matching a rendered path list equals matching through the rendering. -/
theorem renderedPaths_any (l : List (List PathComp)) (f : String → Bool) :
    (renderedPaths l).any f = l.any fun p => f (renderPath p) :=
  listAnyMap renderPath l f

/-- C9 amended: the XML annotator follows the claimed fragment rule (the
dotted path is split on `'.'` and each fragment is substring-matched),
while the JSON and YAML annotators substring-match the **entire** deepdiff
path string against each line — they never split the path — so a line is
marked only when a full path such as `root['b']` occurs in it verbatim. -/
theorem c9_annotator_rules (src tgt : String) (changes : List XChange)
    (dd : DDResult) :
    create_formatted_xml_diff src tgt changes =
      { source := (splitLines src).map (specXmlMarkSource changes),
        target := (splitLines tgt).map (specXmlMarkTarget changes) } ∧
    create_formatted_json_diff src tgt dd =
      { source := (splitLines src).map (specJsonMarkSource dd),
        target := (splitLines tgt).map (specJsonMarkTarget dd) } ∧
    create_formatted_yaml_diff src tgt dd =
      { source := (splitLines src).map (specJsonMarkSource dd),
        target := (splitLines tgt).map (specJsonMarkTarget dd) } := by
  have hxs : xmlMarkSource changes = specXmlMarkSource changes := by
    funext line
    simp only [xmlMarkSource, specXmlMarkSource, kindFragments_any]
  have hxt : xmlMarkTarget changes = specXmlMarkTarget changes := by
    funext line
    simp only [xmlMarkTarget, specXmlMarkTarget, kindFragments_any]
  have hjs : jsonMarkSource dd = specJsonMarkSource dd := by
    funext line
    simp only [jsonMarkSource, specJsonMarkSource, renderedPaths_any, listAnyMap]
  have hjt : jsonMarkTarget dd = specJsonMarkTarget dd := by
    funext line
    simp only [jsonMarkTarget, specJsonMarkTarget, renderedPaths_any, listAnyMap]
  refine ⟨?_, ?_, ?_⟩ <;>
    simp [create_formatted_xml_diff, create_formatted_json_diff,
      create_formatted_yaml_diff, hxs, hxt, hjs, hjt]

/-- The deepdiff report for source `{"a": 1, "b": 2}` versus target
`{"a": 1, "b": 3}`: one value change at `root['b']`. -/
def ddC9 : DDResult :=
  { values_changed := [([PathComp.key "b"], .int 2, .int 3)] }

/-- C9 counterexample: comparing `{"a": 1, "b": 2}` with `{"a": 1, "b": 3}`
produces one Modification at `root['b']`, whose path fragment `b` occurs as
a substring of the (single) source line; the claim therefore requires the
line to be marked `"~"`, but the JSON annotator — which matches the whole
string `root['b']` instead of its fragments — leaves it unmarked. -/
theorem c9_counterexample :
    ddiff [] false [] (.obj [("a", .int 1), ("b", .int 2)])
        (.obj [("a", .int 1), ("b", .int 3)]) = ddC9 ∧
    ddPathFragments [PathComp.key "b"] = ["root", "b"] ∧
    (ddPathFragments [PathComp.key "b"]).any
      (fun part => strContains "\x7b\"a\": 1, \"b\": 2\x7d" part) = true ∧
    create_formatted_json_diff "\x7b\"a\": 1, \"b\": 2\x7d" "\x7b\"a\": 1, \"b\": 3\x7d" ddC9 =
      { source := ["  \x7b\"a\": 1, \"b\": 2\x7d"],
        target := ["  \x7b\"a\": 1, \"b\": 3\x7d"] } ∧
    ("  \x7b\"a\": 1, \"b\": 2\x7d" : String) ≠ "~ " ++ "\x7b\"a\": 1, \"b\": 2\x7d" :=
  ⟨rfl, rfl, rfl, rfl, by decide⟩

/-! ## Well-formedness: python dicts never hold a key twice

`json.loads` and `yaml.safe_load` build python dicts, whose keys are
unique; likewise `xml_to_dict` only appends a binding for a tag it has not
seen.  The predicates below capture that invariant on the association-list
model, and the lemmas show the properties of self-comparison that rely on
it. -/

/-- Keys of an association list are pairwise distinct. -/
def keysNodup {α : Type} : List (String × α) → Bool
  | [] => true
  | (k, _) :: rest => (lookupA k rest).isNone && keysNodup rest

mutual

/-- Every mapping inside the value has pairwise-distinct keys. -/
def wfJ : JValue → Bool
  | .obj fields => keysNodup fields && wfFields fields
  | .arr xs => wfList xs
  | _ => true
  termination_by structural v => v

/-- `wfJ` on every list element. -/
def wfList : List JValue → Bool
  | [] => true
  | x :: xs => wfJ x && wfList xs
  termination_by structural l => l

/-- `wfJ` on every field value. -/
def wfFields : List (String × JValue) → Bool
  | [] => true
  | (_, v) :: fs => wfJ v && wfFields fs
  termination_by structural l => l

end

mutual

/-- No `nan` occurs anywhere inside the value: on such values python `==`
(and hence the scalar comparison of the diff walk) is reflexive. -/
def noNanJ : JValue → Bool
  | .float .nan => false
  | .arr xs => noNanList xs
  | .obj fields => noNanFields fields
  | _ => true
  termination_by structural v => v

/-- `noNanJ` on every list element. -/
def noNanList : List JValue → Bool
  | [] => true
  | x :: xs => noNanJ x && noNanList xs
  termination_by structural l => l

/-- `noNanJ` on every field value. -/
def noNanFields : List (String × JValue) → Bool
  | [] => true
  | (_, v) :: fs => noNanJ v && noNanFields fs
  termination_by structural l => l

end

/-- List elements of a well-formed element list are well-formed. -/
theorem wfList_mem {xs : List JValue} {x : JValue}
    (hwf : wfList xs = true) (h : x ∈ xs) : wfJ x = true := by
  induction xs with
  | nil => simp at h
  | cons hd tl ih =>
      have h1 : wfJ hd = true ∧ wfList tl = true := by
        simpa [wfList, Bool.and_eq_true] using hwf
      rcases List.mem_cons.mp h with he | hm
      · subst he; exact h1.1
      · exact ih h1.2 hm

mutual

/-- Every dict inside the value has pairwise-distinct keys. -/
def wfX : XVal → Bool
  | .str _ => true
  | .dict fields => keysNodup fields && wfXFields fields
  | .list items => wfXList items
  termination_by structural v => v

/-- `wfX` on every field value. -/
def wfXFields : List (String × XVal) → Bool
  | [] => true
  | (_, v) :: fs => wfX v && wfXFields fs
  termination_by structural l => l

/-- `wfX` on every list element. -/
def wfXList : List XVal → Bool
  | [] => true
  | x :: xs => wfX x && wfXList xs
  termination_by structural l => l

end

/-- The element tree of `<root><item>1</item></root>`. -/
def c8src : XmlElement := .mk "root" none [.mk "item" (some "1") []]

/-- The element tree of `<root><item>1</item><item>2</item></root>`. -/
def c8tgt : XmlElement :=
  .mk "root" none [.mk "item" (some "1") [], .mk "item" (some "2") []]

/-- C8 (confirmed): when a tag repeats under one parent, the prior entry is
promoted to a list and the new child appended, preserving the order of the
first two occurrences; consequently comparing
`<root><item>1</item></root>` with
`<root><item>1</item><item>2</item></root>` yields exactly one
Modification at `root.item` (the single entry versus the two-element
sequence), with summary `{0, 0, 1}`. -/
theorem c8_xml_promotion (fromstring : String → Except Exc XmlElement)
    (h1 : fromstring "<root><item>1</item></root>" = .ok c8src)
    (h2 : fromstring "<root><item>1</item><item>2</item></root>" = .ok c8tgt) :
    xml_to_dict c8tgt =
      [("item", XVal.list [.dict [("text", .str "1")], .dict [("text", .str "2")]])] ∧
    ∃ r, compare_xml fromstring "<root><item>1</item></root>"
        "<root><item>1</item><item>2</item></root>" [] true = .ok r ∧
      r.diff = [{ path := "root.item", change_type := .modification,
                  old_value := some (.dict [("text", .str "1")]),
                  new_value := some (.list [.dict [("text", .str "1")],
                                            .dict [("text", .str "2")]]) }] ∧
      r.summary = { additions := 0, deletions := 0, modifications := 1 } := by
  refine ⟨rfl, ?_⟩
  unfold compare_xml
  rw [h1, h2]
  exact ⟨_, rfl, rfl, rfl⟩

/-- A parser stub returning the two C8 element trees. -/
def c8stub : String → Except Exc XmlElement := fun s =>
  if s = "<root><item>1</item></root>" then .ok c8src else .ok c8tgt

/-- Witness for C8 with the stub parser. -/
theorem c8_xml_promotion_witness :
    xml_to_dict c8tgt =
      [("item", XVal.list [.dict [("text", .str "1")], .dict [("text", .str "2")]])] ∧
    ∃ r, compare_xml c8stub "<root><item>1</item></root>"
        "<root><item>1</item><item>2</item></root>" [] true = .ok r ∧
      r.diff = [{ path := "root.item", change_type := .modification,
                  old_value := some (.dict [("text", .str "1")]),
                  new_value := some (.list [.dict [("text", .str "1")],
                                            .dict [("text", .str "2")]]) }] ∧
      r.summary = { additions := 0, deletions := 0, modifications := 1 } :=
  c8_xml_promotion c8stub rfl rfl

/-! ## C3: scope of the ignore-keys exclusion -/

/-- Two strings with the same characters are equal. -/
theorem strExt {a b : String} (h : a.data = b.data) : a = b := by
  cases a; cases b; cases h; rfl

/-- `takeWhile` swallows a satisfying run up to the first failure. -/
theorem takeWhile_run {p : Char → Bool} (l1 : List Char) (x : Char) (l2 : List Char)
    (h1 : ∀ c ∈ l1, p c = true) (h2 : p x = false) :
    (l1 ++ x :: l2).takeWhile p = l1 := by
  induction l1 with
  | nil => simp [List.takeWhile_cons, h2]
  | cons c cs ih =>
      have hc : p c = true := h1 c (List.mem_cons_self _ _)
      simp only [List.cons_append, List.takeWhile_cons, hc, if_true]
      rw [ih fun d hd => h1 d (List.mem_cons_of_mem _ hd)]

/-- The last dot-fragment of `pre ++ "." ++ key` is `key` when `key`
contains no dot. -/
theorem lastFrag_append (pre key : String) (h : key.data.contains '.' = false) :
    lastFrag (pre ++ "." ++ key) = key := by
  have hdata : (pre ++ "." ++ key).data = pre.data ++ '.' :: key.data := by
    show (pre.data ++ ".".data) ++ key.data = pre.data ++ '.' :: key.data
    simp
  unfold lastFrag
  rw [hdata]
  have hrev : (pre.data ++ '.' :: key.data).reverse =
      key.data.reverse ++ '.' :: pre.data.reverse := by
    simp
  rw [hrev]
  have hall : ∀ c ∈ key.data.reverse, (c != '.') = true := by
    intro c hcm
    rw [List.mem_reverse] at hcm
    by_contra hne
    have hcc : c = '.' := by
      simpa using hne
    subst hcc
    simp at h
    exact h hcm
  rw [takeWhile_run key.data.reverse '.' pre.data.reverse hall (by simp)]
  apply strExt
  show (key.data.reverse.reverse).asString.data = key.data
  rw [List.reverse_reverse]
  rfl

mutual

/-- No key anywhere in the value contains a dot (the structural separator
of XML paths). -/
def goodX : XVal → Bool
  | .str _ => true
  | .dict fields => goodXFields fields
  | .list items => goodXList items
  termination_by structural v => v

/-- `goodX` on fields, with dot-free keys. -/
def goodXFields : List (String × XVal) → Bool
  | [] => true
  | (k, v) :: fs => !k.data.contains '.' && goodX v && goodXFields fs
  termination_by structural l => l

/-- `goodX` on list elements. -/
def goodXList : List XVal → Bool
  | [] => true
  | x :: xs => goodX x && goodXList xs
  termination_by structural l => l

end

/-- Fields of a good field list have dot-free keys and good values. -/
theorem goodXFields_mem {fields : List (String × XVal)} {k : String} {v : XVal}
    (hg : goodXFields fields = true) (h : (k, v) ∈ fields) :
    k.data.contains '.' = false ∧ goodX v = true := by
  induction fields with
  | nil => simp at h
  | cons hd tl ih =>
      match hd, hg with
      | (k2, w), hg =>
        have h0 : (k2.data.contains '.' = false ∧ goodX w = true) ∧
            goodXFields tl = true := by
          simpa [goodXFields, Bool.and_eq_true, Bool.not_eq_true'] using hg
        rcases List.mem_cons.mp h with he | hm
        · cases he; exact h0.1
        · exact ih h0.2 hm

/-- A successful lookup in a good field list returns a good value. -/
theorem goodX_lookupA {fields : List (String × XVal)} {k : String} {v : XVal}
    (hg : goodXFields fields = true) (h : lookupA k fields = some v) :
    goodX v = true := by
  induction fields with
  | nil => simp [lookupA] at h
  | cons hd tl ih =>
      match hd, hg with
      | (k2, w), hg =>
        have h0 : (k2.data.contains '.' = false ∧ goodX w = true) ∧
            goodXFields tl = true := by
          simpa [goodXFields, Bool.and_eq_true, Bool.not_eq_true'] using hg
        by_cases hk : k2 == k
        · have : some w = some v := by simpa [lookupA, hk] using h
          cases this; exact h0.1.2
        · exact ih h0.2 (by simpa [lookupA, hk] using h)

/-- Every deletion record comes from a non-ignored source key at the
current level. -/
theorem xmlDels_shape {src tgt : List (String × XVal)} {ig : List String}
    {path : String} {c : XChange} (h : c ∈ xmlDels src tgt ig path) :
    ∃ key v, (key, v) ∈ src ∧ ig.contains key = false ∧
      c.path = path ++ "." ++ key := by
  unfold xmlDels at h
  rw [List.mem_map] at h
  obtain ⟨kv, hkv, hc⟩ := h
  rw [List.mem_filter] at hkv
  refine ⟨kv.1, kv.2, hkv.1, ?_, ?_⟩
  · have := hkv.2
    simp [Bool.and_eq_true] at this
    simpa using this.1
  · rw [← hc]

/-- Every record of the target loop ends at a non-ignored, dot-free key
(keys are dot-free by `goodX` of both dicts). -/
theorem xmlAddsMods_shape :
    ∀ (n : Nat) (l src : List (String × XVal)) (ig : List String) (path : String),
    sizeOf l ≤ n → goodXFields src = true → goodXFields l = true →
    ∀ c ∈ xmlAddsMods src l ig path,
      ∃ pre key, c.path = pre ++ "." ++ key ∧ ig.contains key = false ∧
        key.data.contains '.' = false := by
  intro n
  induction n using Nat.strong_induction_on with
  | _ n IH =>
    intro l src ig path hsize hgsrc hgl c hc
    match l with
    | [] => rw [xmlAddsMods] at hc; simp at hc
    | (key, value) :: rest =>
        have h0 : (key.data.contains '.' = false ∧ goodX value = true) ∧
            goodXFields rest = true := by
          simpa [goodXFields, Bool.and_eq_true, Bool.not_eq_true'] using hgl
        have hszrest : sizeOf rest < sizeOf ((key, value) :: rest) := by
          simp only [List.cons.sizeOf_spec]; omega
        rw [xmlAddsMods] at hc
        rw [List.mem_append] at hc
        rcases hc with hc | hc
        · by_cases hig : ig.contains key = true
          · rw [if_pos hig] at hc; simp at hc
          rw [if_neg hig] at hc
          have higf : ig.contains key = false := by simpa using hig
          cases hlk : lookupA key src with
          | none =>
              rw [hlk] at hc
              simp only [List.mem_singleton] at hc
              exact ⟨path, key, by rw [hc], higf, h0.1.1⟩
          | some sv =>
              rw [hlk] at hc
              dsimp only at hc
              rw [xmlPairChanges.eq_def] at hc
              dsimp only at hc
              by_cases hxe : xeq sv value = true
              · rw [if_pos hxe] at hc; simp at hc
              rw [if_neg hxe] at hc
              match value, sv, hc with
              | .dict tf, .dict sf, hc =>
                  have hgtf : goodXFields tf = true := by
                    simpa [goodX] using h0.1.2
                  have hgsf : goodXFields sf = true := by
                    simpa [goodX] using goodX_lookupA hgsrc hlk
                  have hsztf : sizeOf tf < sizeOf ((key, XVal.dict tf) :: rest) := by
                    simp only [List.cons.sizeOf_spec, Prod.mk.sizeOf_spec,
                      XVal.dict.sizeOf_spec]
                    omega
                  rw [List.mem_append] at hc
                  rcases hc with hc | hc
                  · exact IH (sizeOf tf) (by omega) tf sf ig _ le_rfl hgsf hgtf c hc
                  · obtain ⟨key2, v2, hmem2, hig2, hp2⟩ := xmlDels_shape hc
                    exact ⟨_, key2, hp2, hig2, (goodXFields_mem hgsf hmem2).1⟩
              | .dict tf, .str s, hc =>
                  simp only [List.mem_singleton] at hc
                  exact ⟨path, key, by rw [hc], higf, h0.1.1⟩
              | .dict tf, .list xs, hc =>
                  simp only [List.mem_singleton] at hc
                  exact ⟨path, key, by rw [hc], higf, h0.1.1⟩
              | .str s, sv, hc =>
                  simp only [List.mem_singleton] at hc
                  exact ⟨path, key, by rw [hc], higf, h0.1.1⟩
              | .list xs, sv, hc =>
                  simp only [List.mem_singleton] at hc
                  exact ⟨path, key, by rw [hc], higf, h0.1.1⟩
        · exact IH (sizeOf rest) (by omega) rest src ig path le_rfl hgsrc h0.2 c hc

/-- Membership in a merged report. -/
theorem allDDPaths_merge {a b : DDResult} {q : List PathComp} :
    q ∈ allDDPaths (mergeDD a b) ↔ q ∈ allDDPaths a ∨ q ∈ allDDPaths b := by
  simp only [allDDPaths, mergeDD, List.map_append, List.mem_append]
  tauto

set_option maxHeartbeats 1600000 in
/-- Any path a deepdiff report mentions extends the path of the node the
walk entered — either a record at that node itself, or a path through a
child the exclusion set does not name — and the report is only non-empty
when the entered node itself is not excluded. -/
theorem ddiff_paths_shape :
    ∀ (n : Nat) (t1 t2 : JValue), sizeOf t2 ≤ n →
    ∀ (excl : List String) (io : Bool) (p q : List PathComp),
      q ∈ allDDPaths (ddiff excl io p t1 t2) →
      excl.contains (renderPath p) = false ∧
        (q = p ∨ ∃ c suffix, q = p ++ c :: suffix ∧
          excl.contains (renderPath (p ++ [c])) = false) := by
  intro n
  induction n using Nat.strong_induction_on with
  | _ n IH =>
    intro t1 t2 hsize excl io p q hq
    rw [ddiff.eq_def] at hq
    dsimp only at hq
    by_cases hc : excl.contains (renderPath p) = true
    · rw [if_pos hc] at hq
      simp [allDDPaths, emptyDD] at hq
    rw [if_neg hc] at hq
    refine ⟨by simpa using hc, ?_⟩
    cases t1 <;> cases t2 <;> dsimp only at hq <;>
      first
      | (refine absurd hq ?_
         simp [allDDPaths, emptyDD]
         done)
      | (left
         revert hq
         simp [allDDPaths]
         done)
      | (left
         revert hq
         split <;> simp [allDDPaths, emptyDD]
         done)
      | skip
    case neg.arr.arr a1 a2 =>
      have hsza2 : sizeOf a2 < n := by
        simp only [JValue.arr.sizeOf_spec] at hsize
        omega
      cases io with
      | true =>
          rw [if_pos rfl] at hq
          split at hq
          · exact absurd hq (by simp [allDDPaths, emptyDD])
          · right
            simp only [allDDPaths, List.map_nil, List.nil_append, List.append_nil,
              List.map_map, List.mem_append, List.mem_map, List.mem_filter,
              Function.comp] at hq
            rcases hq with ⟨iv, ⟨hmem, hcond⟩, hqe⟩ | ⟨iv, ⟨hmem, hcond⟩, hqe⟩ <;>
              exact ⟨.idx iv.1, [], by rw [← hqe], by simpa using hcond⟩
      | false =>
          rw [if_neg (by simp)] at hq
          rcases allDDPaths_merge.mp hq with hq | hq
          · have hzip : ∀ (b a : List JValue) (i : Nat), sizeOf b ≤ sizeOf a2 →
                ∀ q2, q2 ∈ allDDPaths (ddZip excl false p i a b) →
                ∃ c suffix, q2 = p ++ c :: suffix ∧
                  excl.contains (renderPath (p ++ [c])) = false := by
              intro b
              induction b with
              | nil =>
                  intro a i _ q2 hq2
                  cases a <;> simp [ddZip, allDDPaths, emptyDD] at hq2
              | cons y ys ihb =>
                  intro a i hszb q2 hq2
                  cases a with
                  | nil => simp [ddZip, allDDPaths, emptyDD] at hq2
                  | cons x xs =>
                      have hsy : sizeOf y < n := by
                        have : sizeOf y < sizeOf (y :: ys) := by
                          simp only [List.cons.sizeOf_spec]; omega
                        omega
                      have hsys : sizeOf ys ≤ sizeOf a2 := by
                        have : sizeOf ys < sizeOf (y :: ys) := by
                          simp only [List.cons.sizeOf_spec]; omega
                        omega
                      rw [ddZip] at hq2
                      rcases allDDPaths_merge.mp hq2 with h3 | h3
                      · obtain ⟨hskip, hsh⟩ := IH (sizeOf y) hsy x y
                          (Nat.le_refl (sizeOf y)) excl false
                          (p ++ [PathComp.idx i]) q2 h3
                        rcases hsh with h4 | ⟨c2, s2, h4, h5⟩
                        · exact ⟨PathComp.idx i, [], h4, hskip⟩
                        · refine ⟨PathComp.idx i, c2 :: s2, ?_, hskip⟩
                          rw [h4]
                          simp
                      · exact ihb xs (i + 1) hsys q2 h3
            rcases hzip a2 a1 0 (Nat.le_refl (sizeOf a2)) q hq with ⟨c2, s2, h4, h5⟩
            exact Or.inr ⟨c2, s2, h4, h5⟩
          · right
            simp only [allDDPaths, List.map_nil, List.nil_append, List.append_nil,
              List.map_map, List.mem_append, List.mem_map, List.mem_filter,
              Function.comp] at hq
            rcases hq with ⟨iv, ⟨hmem, hcond⟩, hqe⟩ | ⟨iv, ⟨hmem, hcond⟩, hqe⟩ <;>
              exact ⟨.idx iv.1, [], by rw [← hqe], by simpa using hcond⟩
    case neg.obj.obj f1 f2 =>
      have hszf2 : sizeOf f2 < n := by
        simp only [JValue.obj.sizeOf_spec] at hsize
        omega
      rcases allDDPaths_merge.mp hq with hq | hq
      · have hobj : ∀ (l : List (String × JValue)), sizeOf l ≤ sizeOf f2 →
            ∀ q2, q2 ∈ allDDPaths (ddObj excl io p f1 l) →
            ∃ c suffix, q2 = p ++ c :: suffix ∧
              excl.contains (renderPath (p ++ [c])) = false := by
          intro l
          induction l with
          | nil =>
              intro _ q2 hq2
              rw [ddObj] at hq2
              simp [allDDPaths, emptyDD] at hq2
          | cons hd tl ihl =>
              intro hszl q2 hq2
              match hd, hq2, hszl with
              | (k, v), hq2, hszl =>
                have hsv : sizeOf v < n := by
                  have h1 : sizeOf v < sizeOf ((k, v) :: tl) := by
                    simp only [List.cons.sizeOf_spec, Prod.mk.sizeOf_spec]; omega
                  omega
                have hstl : sizeOf tl ≤ sizeOf f2 := by
                  have : sizeOf tl < sizeOf ((k, v) :: tl) := by
                    simp only [List.cons.sizeOf_spec]; omega
                  omega
                rw [ddObj] at hq2
                rcases allDDPaths_merge.mp hq2 with h3 | h3
                · by_cases hsk : excl.contains (renderPath (p ++ [.key k])) = true
                  · rw [if_pos hsk] at h3
                    simp [allDDPaths, emptyDD] at h3
                  rw [if_neg hsk] at h3
                  cases hlk : lookupA k f1 with
                  | none =>
                      rw [hlk] at h3
                      have h4 : q2 = p ++ [PathComp.key k] := by
                        simpa [allDDPaths] using h3
                      exact ⟨.key k, [], h4, by simpa using hsk⟩
                  | some sv =>
                      rw [hlk] at h3
                      dsimp only at h3
                      obtain ⟨hskip, hsh⟩ := IH (sizeOf v) hsv sv v
                        (Nat.le_refl (sizeOf v)) excl io
                        (p ++ [PathComp.key k]) q2 h3
                      rcases hsh with h4 | ⟨c2, s2, h4, h5⟩
                      · exact ⟨PathComp.key k, [], h4, hskip⟩
                      · refine ⟨PathComp.key k, c2 :: s2, ?_, hskip⟩
                        rw [h4]
                        simp
                · exact ihl hstl q2 h3
        rcases hobj f2 (Nat.le_refl (sizeOf f2)) q hq with ⟨c2, s2, h4, h5⟩
        exact Or.inr ⟨c2, s2, h4, h5⟩
      · right
        simp only [allDDPaths, List.map_nil, List.nil_append, List.append_nil,
          List.map_map, List.mem_append, List.mem_map, List.mem_filter,
          Function.comp] at hq
        rcases hq with ⟨kv, ⟨hmem, hcond⟩, hqe⟩
        refine ⟨.key kv.1, [], by rw [← hqe], ?_⟩
        have := hcond
        simp [Bool.and_eq_true] at this
        simpa using this.1

/-- Rendering a single bare-key path. -/
theorem renderPath_key (k : String) :
    renderPath [PathComp.key k] = "root[\x27" ++ k ++ "\x27]" := by
  apply strExt
  simp [renderPath, renderComp, String.join]

/-- An ignore-keys entry that does not start with `root` is turned by
deepdiff's `add_root_to_paths` into exactly the rendering of the top-level
path for that key, so the exclusion set contains that rendering. -/
theorem excludeSet_hit {ig : List String} {k : String} (hmem : k ∈ ig)
    (hnr : pyStartsWith k "root" = false) :
    (excludeSet ig).contains (renderPath [PathComp.key k]) = true := by
  have himg : renderPath [PathComp.key k] ∈ addRootToPaths ig := by
    rw [renderPath_key]
    unfold addRootToPaths
    rw [List.mem_map]
    exact ⟨k, hmem, by simp [hnr]⟩
  have hall : renderPath [PathComp.key k] ∈ excludeSet ig := by
    unfold excludeSet
    exact List.mem_append_left _ himg
  simpa using hall

/-- A bare (non-`root`-prefixed) ignore-keys entry `k` does exclude the
TOP-LEVEL key `k` from the deepdiff walk: no report path is exactly
`root['k']`. -/
theorem ddiff_top_exclusion {ig : List String} {k : String} (hmem : k ∈ ig)
    (hnr : pyStartsWith k "root" = false) (io : Bool) (t1 t2 : JValue) :
    [PathComp.key k] ∉ allDDPaths (ddiff (excludeSet ig) io [] t1 t2) := by
  intro hq
  obtain ⟨-, hsh⟩ := ddiff_paths_shape (sizeOf t2) t1 t2 (Nat.le_refl (sizeOf t2))
    (excludeSet ig) io [] [PathComp.key k] hq
  rcases hsh with h | ⟨c, suffix, he, hcont⟩
  · exact List.cons_ne_nil _ _ h
  · simp only [List.nil_append] at he hcont
    injection he with h1 h2
    rw [← h1] at hcont
    rw [excludeSet_hit hmem hnr] at hcont
    cases hcont

/-- Concrete result of the C3 counterexample run: the nested occurrence of
the ignored key `secret` is still compared and reported. -/
def c3res : JsonResult :=
  { summary := { additions := 0, deletions := 0, modifications := 1 }
    diff := [{ path := "root[\x27a\x27][\x27secret\x27]", change_type := .modification,
               old_value := some (.int 1), new_value := some (.int 2) }]
    formatted_diff := { source := ["  \x7b\"a\": \x7b\"secret\": 1\x7d\x7d"],
                        target := ["  \x7b\"a\": \x7b\"secret\": 2\x7d\x7d"] } }

/-- C3 (counterexample): with `ignore_keys = ["secret"]` the JSON
comparison of `{"a": {"secret": 1}}` against `{"a": {"secret": 2}}` still
returns a change record whose path `root['a']['secret']` terminates in the
ignored key: deepdiff's `exclude_paths` treats the bare entry `secret` as
the absolute path `root['secret']`, so the nested occurrence is neither
skipped nor unreported, contradicting the claim's "at every nesting
level". -/
theorem c3_counterexample :
    compare_json "\x7b\"a\": \x7b\"secret\": 1\x7d\x7d"
        "\x7b\"a\": \x7b\"secret\": 2\x7d\x7d" ["secret"] true = .ok c3res ∧
      c3res.diff.any (fun r => strEndsWith r.path "[\x27secret\x27]") = true :=
  ⟨rfl, rfl⟩

/-- C3 (amended): the exclusion the code actually performs.  XML: a key
listed in `ignore_keys` is skipped at EVERY nesting level of
`compare_xml_dicts` (for well-formed dicts with dot-free keys), so no
change record's dotted path terminates in it.  JSON/YAML: a bare
ignore-keys entry `k` only excludes the TOP-LEVEL key `k` — deepdiff
resolves it to the absolute path `root['k']` — and no deepdiff report path
is exactly that top-level path; nested occurrences are still reported
(see the counterexample). -/
theorem c3_exclusion_scope :
    (∀ (src tgt : List (String × XVal)) (ig : List String) (path k : String),
        ig.contains k = true → goodXFields src = true → goodXFields tgt = true →
        ∀ c ∈ compare_xml_dicts src tgt ig path, lastFrag c.path ≠ k) ∧
    (∀ (ig : List String) (k : String), k ∈ ig → pyStartsWith k "root" = false →
        ∀ (io : Bool) (t1 t2 : JValue),
        [PathComp.key k] ∉ allDDPaths (ddiff (excludeSet ig) io [] t1 t2)) := by
  constructor
  · intro src tgt ig path k hig hgs hgt c hc
    rw [compare_xml_dicts, List.mem_append] at hc
    rcases hc with hc | hc
    · obtain ⟨pre, key, hp, hkeyig, hdot⟩ :=
        xmlAddsMods_shape (sizeOf tgt) tgt src ig path (Nat.le_refl (sizeOf tgt))
          hgs hgt c hc
      rw [hp, lastFrag_append _ _ hdot]
      intro he
      rw [he] at hkeyig
      have hmem2 : k ∈ ig := by simpa using hig
      simp [hmem2] at hkeyig
    · obtain ⟨key, v, hmem, hkeyig, hp⟩ := xmlDels_shape hc
      have hdot := (goodXFields_mem hgs hmem).1
      rw [hp, lastFrag_append _ _ hdot]
      intro he
      rw [he] at hkeyig
      have hmem2 : k ∈ ig := by simpa using hig
      simp [hmem2] at hkeyig
  · exact fun ig k hmem hnr io t1 t2 => ddiff_top_exclusion hmem hnr io t1 t2

/-- Witness for `c3_exclusion_scope` at concrete inputs. -/
theorem c3_exclusion_scope_witness :
    (∀ c ∈ compare_xml_dicts [("a", XVal.str "1")]
        [("a", XVal.str "2"), ("b", XVal.str "3")] ["a"] "root",
      lastFrag c.path ≠ "a") ∧
    [PathComp.key "secret"] ∉ allDDPaths (ddiff (excludeSet ["secret"]) false []
      (JValue.obj [("secret", JValue.int 1)]) (JValue.obj [("secret", JValue.int 2)])) :=
  ⟨c3_exclusion_scope.1 [("a", XVal.str "1")] [("a", XVal.str "2"), ("b", XVal.str "3")]
      ["a"] "root" "a" rfl rfl rfl,
    c3_exclusion_scope.2 ["secret"] "secret" (List.mem_cons_self _ _) rfl false _ _⟩

end ConfigCompare
